import Mathlib

/-!
Verification development for the fast Poisson disk sampling library
(src/fpds.hpp).  The sampler is embedded shallowly:

* coordinates are exact rationals; the squared-distance comparisons of the
  source (`distance2(a, b) < r * r`) are kept verbatim, with the squared
  separation radius `r2` an explicit parameter;
* the source computes `cell_size = separation_distance / sqrtf(2.0f)` in
  floating point (lines 75 and 87); the run-level model takes the cell size
  as a rational input, and that real-valued formula is modelled separately
  by `grid2_cell_size` and `grid3_cell_size` below;
* the random collaborators (`uniform_int_distribution`,
  `uniform_real_distribution`, lines 57-71) are modelled by explicit draw
  streams: the seed point, one index draw per main-loop iteration, and one
  candidate offset (radius times direction) per attempt.  An index draw is
  reduced modulo the current active-list length, matching the contract
  `uniform_int_distribution(0, active_list.size() - 1)`;
* `std::vector` reads through `operator[]` are unchecked in the source
  (undefined behavior out of range).  The model's `gridRead` returns the
  marker value `-2` - distinct from `NO_SAMPLE = -1` and from every sample
  index - for a flat index outside the backing list, and `gridWrite` is the
  identity there, so any branch taken on such a read is explicit in the
  model and the invariant theorems show in-range states never produce it.
-/

attribute [local semireducible] Rat.add Rat.mul Rat.sub Rat.inv

set_option maxRecDepth 100000

/-- Two-component point, `fpds::vec2` (fpds.hpp lines 15-21). -/
structure vec2 where
  x : ℚ
  y : ℚ
deriving DecidableEq

/-- Two-component integer cell coordinate, `fpds::ivec2` (lines 23-29). -/
structure ivec2 where
  x : ℤ
  y : ℤ
deriving DecidableEq

/-- Three-component point, `fpds::vec3` (lines 31-38). -/
structure vec3 where
  x : ℚ
  y : ℚ
  z : ℚ
deriving DecidableEq

/-- Three-component integer cell coordinate, `fpds::ivec3` (lines 40-47). -/
structure ivec3 where
  x : ℤ
  y : ℤ
  z : ℤ
deriving DecidableEq

/-- Squared distance between 2D points, `fpds::distance2` (lines 49-51). -/
def distance2_vec2 (a b : vec2) : ℚ :=
  (a.x - b.x) * (a.x - b.x) + (a.y - b.y) * (a.y - b.y)

/-- Squared distance between 3D points, `fpds::distance2` (lines 53-55). -/
def distance2_vec3 (a b : vec3) : ℚ :=
  (a.x - b.x) * (a.x - b.x) + (a.y - b.y) * (a.y - b.y) + (a.z - b.z) * (a.z - b.z)

/-- The empty-cell sentinel `NO_SAMPLE` (line 9). -/
def NO_SAMPLE : ℤ := -1

/-- Unchecked flat read `grid_data[i]`.  In range it is the list element; the
source performs no check (`std::vector::operator[]`), and an out-of-range
read - undefined behavior in C++ - is modelled by the marker `-2`. -/
def gridRead (data : List ℤ) (i : ℤ) : ℤ :=
  if h : 0 ≤ i ∧ i.toNat < data.length then data.get ⟨i.toNat, h.2⟩ else -2

/-- Unchecked flat write `grid_data[i] = v`; out of range (undefined behavior
in the source) the model leaves the list unchanged. -/
def gridWrite (data : List ℤ) (i : ℤ) (v : ℤ) : List ℤ :=
  if 0 ≤ i then data.set i.toNat v else data

/-- The background grid, `fpds::grid` (lines 73-135). -/
structure grid where
  cell_size : ℚ
  grid_width : ℤ
  grid_height : ℤ
  grid_depth : ℤ
  grid_size : ℤ
  grid_data : List ℤ
deriving DecidableEq

/-- The 2D grid constructor (lines 74-84): per-axis cell counts are
`ceil(extent / cell_size)`, `grid_depth` is the unused `-1`, and every cell
starts as `NO_SAMPLE`.  The source computes the cell size from the
separation distance in floating point; here it is passed in. -/
def grid.construct2 (dimensions : vec2) (cell_size : ℚ) : grid :=
  let gw := ⌈dimensions.x / cell_size⌉
  let gh := ⌈dimensions.y / cell_size⌉
  ⟨cell_size, gw, gh, -1, gw * gh, List.replicate (gw * gh).toNat NO_SAMPLE⟩

/-- The 3D grid constructor (lines 86-96). -/
def grid.construct3 (dimensions : vec3) (cell_size : ℚ) : grid :=
  let gw := ⌈dimensions.x / cell_size⌉
  let gh := ⌈dimensions.y / cell_size⌉
  let gd := ⌈dimensions.z / cell_size⌉
  ⟨cell_size, gw, gh, gd, gw * gh * gd, List.replicate (gw * gh * gd).toNat NO_SAMPLE⟩

/-- 2D cell read `grid_data[x + grid_width * y]` (lines 99-101). -/
def grid.get2 (g : grid) (x y : ℤ) : ℤ :=
  gridRead g.grid_data (x + g.grid_width * y)

/-- 2D cell write (lines 103-105). -/
def grid.set2 (g : grid) (value : ℤ) (x y : ℤ) : grid :=
  { g with grid_data := gridWrite g.grid_data (x + g.grid_width * y) value }

/-- 3D cell read `grid_data[x + grid_width * z + grid_width * grid_depth * y]`
(lines 108-110). -/
def grid.get3 (g : grid) (x y z : ℤ) : ℤ :=
  gridRead g.grid_data (x + g.grid_width * z + g.grid_width * g.grid_depth * y)

/-- 3D cell write (lines 112-114). -/
def grid.set3 (g : grid) (value : ℤ) (x y z : ℤ) : grid :=
  { g with grid_data := gridWrite g.grid_data (x + g.grid_width * z + g.grid_width * g.grid_depth * y) value }

/-- World-to-cell conversion, 2D overload of `convert_to_grid_coordinates`
(lines 116-119): per-axis `floor(coordinate / cell_size)`. -/
def grid.toCell2 (g : grid) (p : vec2) : ivec2 :=
  ⟨⌊p.x / g.cell_size⌋, ⌊p.y / g.cell_size⌋⟩

/-- World-to-cell conversion, 3D overload (lines 121-125). -/
def grid.toCell3 (g : grid) (p : vec3) : ivec3 :=
  ⟨⌊p.x / g.cell_size⌋, ⌊p.y / g.cell_size⌋, ⌊p.z / g.cell_size⌋⟩

/-- Checked cell accessor following the spec's words: a "bounds error" - any
accessor given an out-of-range index must fail explicitly (spec section 7) -
is rendered as `none` for a cell coordinate outside the grid.  This is the
specification-side counterpart of `grid.get2`, for comparison with it. -/
def grid.get2_checked (g : grid) (x y : ℤ) : Option ℤ :=
  if 0 ≤ x ∧ x < g.grid_width ∧ 0 ≤ y ∧ y < g.grid_height then
    some (gridRead g.grid_data (x + g.grid_width * y))
  else none

/-- The real-valued cell size computed by the 2D grid constructor (line 75):
`separation_distance / sqrtf(2.0f)`. -/
noncomputable def grid2_cell_size (separation_distance : ℝ) : ℝ :=
  separation_distance / Real.sqrt 2

/-- The real-valued cell size computed by the 3D grid constructor (line 87):
also `separation_distance / sqrtf(2.0f)`. -/
noncomputable def grid3_cell_size (separation_distance : ℝ) : ℝ :=
  separation_distance / Real.sqrt 2

/-- Real-valued squared distance for 2D points, for the cell-size geometry. -/
noncomputable def rdist2 (a b : ℝ × ℝ) : ℝ :=
  (a.1 - b.1) * (a.1 - b.1) + (a.2 - b.2) * (a.2 - b.2)

/-- Real-valued cell coordinate of a 1D world coordinate at a cell size. -/
noncomputable def rcell (cell_size c : ℝ) : ℤ := ⌊c / cell_size⌋

/-- Random draws for one main-loop iteration: the active-position draw and
the per-attempt candidate offsets (radius times unit direction). -/
structure Iter2Draws where
  idxDraw : ℕ
  offsets : List vec2
deriving DecidableEq

/-- The mutable state of one 2D sampling run. -/
structure State2 where
  g : grid
  point_list : List vec2
  active_list : List ℕ
  sample_index : ℕ
deriving DecidableEq

/-- The adjacent-cell sweep of `fast_poisson_disk_2d` (lines 198-231):
for `y` and `x` in `-1..1`, skipping the center cell and out-of-range cells,
an occupied neighbor cell invalidates the candidate when the stored point is
closer than `r` (squared comparison, line 225).  The sweep's early `break`
only ever latches `valid_sample = false`, so the result is the conjunction
over all visited cells. -/
def neighbor_check_2d (g : grid) (point_list : List vec2) (r2 : ℚ) (c : ivec2) (cand : vec2) : Bool :=
  ([-1, 0, 1] : List ℤ).all fun y =>
    ([-1, 0, 1] : List ℤ).all fun x =>
      if x = 0 ∧ y = 0 then true
      else
        let x_offset := c.x + x
        let y_offset := c.y + y
        if x_offset < 0 ∨ g.grid_width ≤ x_offset then true
        else if y_offset < 0 ∨ g.grid_height ≤ y_offset then true
        else
          let t := g.get2 x_offset y_offset
          if t = NO_SAMPLE then true
          else decide (r2 ≤ distance2_vec2 (point_list.getD t.toNat ⟨0, 0⟩) cand)

/-- One candidate test of the 2D attempt loop (lines 176-231): bounds check
against `[0, extent)` per axis, own-cell occupancy check, then the neighbor
sweep; `some c` returns the candidate's cell on success. -/
def attempt_2d (dimensions : vec2) (r2 : ℚ) (g : grid) (point_list : List vec2) (cand : vec2) : Option ivec2 :=
  if cand.x < 0 ∨ dimensions.x ≤ cand.x then none
  else if cand.y < 0 ∨ dimensions.y ≤ cand.y then none
  else
    let c := g.toCell2 cand
    if g.get2 c.x c.y ≠ NO_SAMPLE then none
    else if neighbor_check_2d g point_list r2 c cand then some c
    else none

/-- The attempt loop `for (int i = 0; i < k; ++i)` (lines 171-245): the
first valid candidate is accepted and the loop breaks. -/
def first_accept_2d (dimensions : vec2) (r2 : ℚ) (g : grid) (point_list : List vec2) (parent : vec2) : List vec2 → Option (vec2 × ivec2)
  | [] => none
  | o :: rest =>
    let cand : vec2 := ⟨parent.x + o.x, parent.y + o.y⟩
    match attempt_2d dimensions r2 g point_list cand with
    | some c => some (cand, c)
    | none => first_accept_2d dimensions r2 g point_list parent rest

/-- One main-loop iteration of `fast_poisson_disk_2d` (lines 163-252).
Note lines 165-166: the drawn value `index` is a position into the active
list, but the source reads the parent as `point_list[index]`, not
`point_list[active_list[index]]`; the embedding reproduces this.  On
acceptance the grid cell, point list, active list and sample counter grow
together (lines 233-244); otherwise position `index` is erased from the
active list (line 250). -/
def step_2d (dimensions : vec2) (r2 : ℚ) (k : ℤ) (d : Iter2Draws) (s : State2) : State2 :=
  if s.active_list.isEmpty then s
  else
    match first_accept_2d dimensions r2 s.g s.point_list
        (s.point_list.getD (d.idxDraw % s.active_list.length) ⟨0, 0⟩)
        ((List.range k.toNat).map fun i => d.offsets.getD i ⟨0, 0⟩) with
    | some cc =>
      { g := s.g.set2 (s.sample_index : ℤ) cc.2.x cc.2.y
        point_list := s.point_list ++ [cc.1]
        active_list := s.active_list ++ [s.sample_index]
        sample_index := s.sample_index + 1 }
    | none =>
      { s with active_list := s.active_list.eraseIdx (d.idxDraw % s.active_list.length) }

/-- The main loop `while (!active_list.empty())`, driven by the list of
per-iteration draws; once the active list is empty the state is final. -/
def run_2d (dimensions : vec2) (r2 : ℚ) (k : ℤ) : List Iter2Draws → State2 → State2
  | [], s => s
  | d :: ds, s =>
    if s.active_list.isEmpty then s
    else run_2d dimensions r2 k ds (step_2d dimensions r2 k d s)

/-- Seeding (lines 148-161): the seed point gets index 0, is recorded in the
grid at its cell, appended to the point list and to the active list, and the
sample counter becomes 1. -/
def init_2d (dimensions : vec2) (cell_size : ℚ) (seed : vec2) : State2 :=
  let g := grid.construct2 dimensions cell_size
  let c := g.toCell2 seed
  { g := g.set2 0 c.x c.y
    point_list := [seed]
    active_list := [0]
    sample_index := 1 }

/-- `fpds::fast_poisson_disk_2d` (lines 142-255), over its draw stream:
seed, run the main loop, return the point list. -/
def fast_poisson_disk_2d (dimensions : vec2) (cell_size r2 : ℚ) (k : ℤ) (seed : vec2) (draws : List Iter2Draws) : List vec2 :=
  (run_2d dimensions r2 k draws (init_2d dimensions cell_size seed)).point_list

/-- Termination measure of a 2D state: twice the number of empty cells plus
the active-list length.  Each iteration decreases it. -/
def measure_2d (s : State2) : ℕ :=
  2 * s.g.grid_data.count NO_SAMPLE + s.active_list.length

/-- Random draws for one 3D main-loop iteration. -/
structure Iter3Draws where
  idxDraw : ℕ
  offsets : List vec3
deriving DecidableEq

/-- The mutable state of one 3D sampling run. -/
structure State3 where
  g : grid
  point_list : List vec3
  active_list : List ℕ
  sample_index : ℕ
deriving DecidableEq

/-- The adjacent-cell sweep of `fast_poisson_disk_3d` (lines 326-365): the
triple loop over `y`, `x`, `z` in `-1..1`, skipping the center cell and
out-of-range cells; an occupied neighbor invalidates the candidate when its
stored point is closer than `r` (squared comparison, line 358).  The inner
`break` only ever latches `valid_sample = false`, so the result is the
conjunction over all visited cells. -/
def neighbor_check_3d (g : grid) (point_list : List vec3) (r2 : ℚ) (c : ivec3) (cand : vec3) : Bool :=
  ([-1, 0, 1] : List ℤ).all fun y =>
    ([-1, 0, 1] : List ℤ).all fun x =>
      ([-1, 0, 1] : List ℤ).all fun z =>
        if x = 0 ∧ y = 0 ∧ z = 0 then true
        else
          let x_offset := c.x + x
          let y_offset := c.y + y
          let z_offset := c.z + z
          if x_offset < 0 ∨ g.grid_width ≤ x_offset then true
          else if y_offset < 0 ∨ g.grid_height ≤ y_offset then true
          else if z_offset < 0 ∨ g.grid_depth ≤ z_offset then true
          else
            let t := g.get3 x_offset y_offset z_offset
            if t = NO_SAMPLE then true
            else decide (r2 ≤ distance2_vec3 (point_list.getD t.toNat ⟨0, 0, 0⟩) cand)

/-- One candidate test of the 3D attempt loop (lines 298-365). -/
def attempt_3d (dimensions : vec3) (r2 : ℚ) (g : grid) (point_list : List vec3) (cand : vec3) : Option ivec3 :=
  if cand.x < 0 ∨ dimensions.x ≤ cand.x then none
  else if cand.y < 0 ∨ dimensions.y ≤ cand.y then none
  else if cand.z < 0 ∨ dimensions.z ≤ cand.z then none
  else
    let c := g.toCell3 cand
    if g.get3 c.x c.y c.z ≠ NO_SAMPLE then none
    else if neighbor_check_3d g point_list r2 c cand then some c
    else none

/-- The 3D attempt loop (lines 292-379): first valid candidate wins. -/
def first_accept_3d (dimensions : vec3) (r2 : ℚ) (g : grid) (point_list : List vec3) (parent : vec3) : List vec3 → Option (vec3 × ivec3)
  | [] => none
  | o :: rest =>
    let cand : vec3 := ⟨parent.x + o.x, parent.y + o.y, parent.z + o.z⟩
    match attempt_3d dimensions r2 g point_list cand with
    | some c => some (cand, c)
    | none => first_accept_3d dimensions r2 g point_list parent rest

/-- One main-loop iteration of `fast_poisson_disk_3d` (lines 284-386); as in
2D, the parent is read at `point_list[index]` where `index` is a position
into the active list (lines 286-287), and that position is erased on
failure (line 384). -/
def step_3d (dimensions : vec3) (r2 : ℚ) (k : ℤ) (d : Iter3Draws) (s : State3) : State3 :=
  if s.active_list.isEmpty then s
  else
    match first_accept_3d dimensions r2 s.g s.point_list
        (s.point_list.getD (d.idxDraw % s.active_list.length) ⟨0, 0, 0⟩)
        ((List.range k.toNat).map fun i => d.offsets.getD i ⟨0, 0, 0⟩) with
    | some cc =>
      { g := s.g.set3 (s.sample_index : ℤ) cc.2.x cc.2.y cc.2.z
        point_list := s.point_list ++ [cc.1]
        active_list := s.active_list ++ [s.sample_index]
        sample_index := s.sample_index + 1 }
    | none =>
      { s with active_list := s.active_list.eraseIdx (d.idxDraw % s.active_list.length) }

/-- The 3D main loop over the draw stream. -/
def run_3d (dimensions : vec3) (r2 : ℚ) (k : ℤ) : List Iter3Draws → State3 → State3
  | [], s => s
  | d :: ds, s =>
    if s.active_list.isEmpty then s
    else run_3d dimensions r2 k ds (step_3d dimensions r2 k d s)

/-- 3D seeding (lines 268-282). -/
def init_3d (dimensions : vec3) (cell_size : ℚ) (seed : vec3) : State3 :=
  let g := grid.construct3 dimensions cell_size
  let c := g.toCell3 seed
  { g := g.set3 0 c.x c.y c.z
    point_list := [seed]
    active_list := [0]
    sample_index := 1 }

/-- `fpds::fast_poisson_disk_3d` (lines 262-389), over its draw stream. -/
def fast_poisson_disk_3d (dimensions : vec3) (cell_size r2 : ℚ) (k : ℤ) (seed : vec3) (draws : List Iter3Draws) : List vec3 :=
  (run_3d dimensions r2 k draws (init_3d dimensions cell_size seed)).point_list

/-- Termination measure of a 3D state. -/
def measure_3d (s : State3) : ℕ :=
  2 * s.g.grid_data.count NO_SAMPLE + s.active_list.length

/-- The cell of a 2D point at a given cell size, as computed by
`convert_to_grid_coordinates` (lines 116-119), for stating properties of
returned point lists without mentioning a grid value. -/
def world_to_cell_2d (cell_size : ℚ) (p : vec2) : ivec2 :=
  ⟨⌊p.x / cell_size⌋, ⌊p.y / cell_size⌋⟩

/-- The cell of a 3D point at a given cell size (lines 121-125). -/
def world_to_cell_3d (cell_size : ℚ) (p : vec3) : ivec3 :=
  ⟨⌊p.x / cell_size⌋, ⌊p.y / cell_size⌋, ⌊p.z / cell_size⌋⟩

/-- Chebyshev distance between 2D cell coordinates: the number of cell
steps separating them (the neighbor sweep visits cells at distance 1). -/
def cheb2 (a b : ivec2) : ℤ :=
  max |a.x - b.x| |a.y - b.y|

/-- Chebyshev distance between 3D cell coordinates. -/
def cheb3 (a b : ivec3) : ℤ :=
  max (max |a.x - b.x| |a.y - b.y|) |a.z - b.z|

/-- Row-major flattening of a 2D cell coordinate (line 100). -/
def flatten2 (gw : ℤ) (c : ivec2) : ℤ :=
  c.x + gw * c.y

/-- Flattening of a 3D cell coordinate (line 109). -/
def flatten3 (gw gd : ℤ) (c : ivec3) : ℤ :=
  c.x + gw * c.z + gw * gd * c.y

/-- Domain of the concrete 2D run exhibiting a separation violation:
a 100 by 100 box. -/
def cex2Dims : vec2 := ⟨100, 100⟩

/-- Seed draw of the concrete 2D run: the point (34.9, 2.5), lying in grid
cell (6, 0) at cell size 5 (the cell size for squared radius r2 = 50,
since 5 * 5 * 2 = 50). -/
def cex2Seed : vec2 := ⟨349/10, 5/2⟩

/-- Draws of the concrete 2D run with k = 1, squared radius 50 and cell
size 5.  Every offset has squared norm in [50, 200), i.e. radius in
[r, 2r), as `uniform_real_distribution(r, 2.0f * r)` guarantees.
Iteration 1 accepts (47.9, 2.5) (cell (9, 0)); iteration 2, spawning from
it, accepts (40, 2.5) (cell (8, 0)), whose neighbor sweep never visits the
seed's cell (6, 0) two steps away even though the seed is at distance
sqrt(26.01) < sqrt(50) = r; iterations 3-5 drain the active list with an
out-of-bounds candidate offset. -/
def cex2Draws : List Iter2Draws :=
  [⟨0, [⟨13, 0⟩]⟩, ⟨1, [⟨-79/10, 0⟩]⟩, ⟨0, [⟨0, -8⟩]⟩, ⟨0, [⟨0, -8⟩]⟩, ⟨0, [⟨0, -8⟩]⟩]

/-- The point list returned by the concrete 2D run. -/
def cex2Points : List vec2 :=
  fast_poisson_disk_2d cex2Dims 5 50 1 cex2Seed cex2Draws

/-- The state of the concrete 2D run after its first three main-loop
iterations: three accepted points, active list [1, 2] (member 0 erased). -/
def cex2State3 : State2 :=
  run_2d cex2Dims 50 1 (cex2Draws.take 3) (init_2d cex2Dims 5 cex2Seed)

/-- Real-valued squared distance for 3D points. -/
noncomputable def rdist3 (a b : ℝ × ℝ × ℝ) : ℝ :=
  (a.1 - b.1) * (a.1 - b.1) + (a.2.1 - b.2.1) * (a.2.1 - b.2.1) +
    (a.2.2 - b.2.2) * (a.2.2 - b.2.2)

/-- A concrete grid for exercising the accessors: 2 by 2 cells, one sample
index (5) stored in cell (0, 1), i.e. flat slot 2. -/
def cex9Grid : grid := ⟨1, 2, 2, -1, 4, [-1, -1, 5, -1]⟩

/-- Domain of a small concrete 3D run: a 20 by 20 by 20 box. -/
def wit3Dims : vec3 := ⟨20, 20, 20⟩

/-- Seed of the small concrete 3D run, in cell (0, 0, 0) at cell size 5. -/
def wit3Seed : vec3 := ⟨5/2, 5/2, 5/2⟩

/-- Draws of the small concrete 3D run (k = 1, squared radius 50, cell
size 5): one accepted child at (9.9, 2.5, 2.5) in the adjacent cell
(1, 0, 0), then two draining iterations with an out-of-bounds offset.
Offset squared norms (54.76 and 64) lie in [50, 200). -/
def wit3Draws : List Iter3Draws :=
  [⟨0, [⟨37/5, 0, 0⟩]⟩, ⟨0, [⟨0, 0, -8⟩]⟩, ⟨0, [⟨0, 0, -8⟩]⟩]

/-- The point list returned by the small concrete 3D run. -/
def wit3Points : List vec3 :=
  fast_poisson_disk_3d wit3Dims 5 50 1 wit3Seed wit3Draws

/-- Run invariant of the 2D sampler: grid geometry is fixed, every occupied
cell stores a valid point index, the sample counter equals the point count,
active members are valid positions, accepted points lie in the domain box,
each accepted point's cell stores its own index, and any two distinct
accepted points whose cells are within one cell step of each other are at
squared distance at least `r2`. -/
structure Inv2 (dimensions : vec2) (cell_size r2 : ℚ) (s : State2) : Prop where
  cs_eq : s.g.cell_size = cell_size
  gw_eq : s.g.grid_width = ⌈dimensions.x / cell_size⌉
  gh_eq : s.g.grid_height = ⌈dimensions.y / cell_size⌉
  len_eq : s.g.grid_data.length = (⌈dimensions.x / cell_size⌉ * ⌈dimensions.y / cell_size⌉).toNat
  entries : ∀ v ∈ s.g.grid_data, v = NO_SAMPLE ∨ (0 ≤ v ∧ v.toNat < s.point_list.length)
  samp_eq : s.sample_index = s.point_list.length
  active_mem : ∀ a ∈ s.active_list, a < s.point_list.length
  active_len : s.active_list.length ≤ s.point_list.length
  in_box : ∀ p ∈ s.point_list, 0 ≤ p.x ∧ p.x < dimensions.x ∧ 0 ≤ p.y ∧ p.y < dimensions.y
  cell_reg : ∀ i, i < s.point_list.length →
    gridRead s.g.grid_data
      (flatten2 s.g.grid_width (world_to_cell_2d cell_size (s.point_list.getD i ⟨0, 0⟩))) = (i : ℤ)
  sep_adj : ∀ i j, i < s.point_list.length → j < s.point_list.length → i ≠ j →
    cheb2 (world_to_cell_2d cell_size (s.point_list.getD i ⟨0, 0⟩))
      (world_to_cell_2d cell_size (s.point_list.getD j ⟨0, 0⟩)) ≤ 1 →
    r2 ≤ distance2_vec2 (s.point_list.getD i ⟨0, 0⟩) (s.point_list.getD j ⟨0, 0⟩)

/-- Run invariant of the 3D sampler, mirroring `Inv2`. -/
structure Inv3 (dimensions : vec3) (cell_size r2 : ℚ) (s : State3) : Prop where
  cs_eq : s.g.cell_size = cell_size
  gw_eq : s.g.grid_width = ⌈dimensions.x / cell_size⌉
  gh_eq : s.g.grid_height = ⌈dimensions.y / cell_size⌉
  gd_eq : s.g.grid_depth = ⌈dimensions.z / cell_size⌉
  len_eq : s.g.grid_data.length =
    (⌈dimensions.x / cell_size⌉ * ⌈dimensions.y / cell_size⌉ * ⌈dimensions.z / cell_size⌉).toNat
  entries : ∀ v ∈ s.g.grid_data, v = NO_SAMPLE ∨ (0 ≤ v ∧ v.toNat < s.point_list.length)
  samp_eq : s.sample_index = s.point_list.length
  active_mem : ∀ a ∈ s.active_list, a < s.point_list.length
  active_len : s.active_list.length ≤ s.point_list.length
  in_box : ∀ p ∈ s.point_list,
    0 ≤ p.x ∧ p.x < dimensions.x ∧ 0 ≤ p.y ∧ p.y < dimensions.y ∧ 0 ≤ p.z ∧ p.z < dimensions.z
  cell_reg : ∀ i, i < s.point_list.length →
    gridRead s.g.grid_data
      (flatten3 s.g.grid_width s.g.grid_depth
        (world_to_cell_3d cell_size (s.point_list.getD i ⟨0, 0, 0⟩))) = (i : ℤ)
  sep_adj : ∀ i j, i < s.point_list.length → j < s.point_list.length → i ≠ j →
    cheb3 (world_to_cell_3d cell_size (s.point_list.getD i ⟨0, 0, 0⟩))
      (world_to_cell_3d cell_size (s.point_list.getD j ⟨0, 0, 0⟩)) ≤ 1 →
    r2 ≤ distance2_vec3 (s.point_list.getD i ⟨0, 0, 0⟩) (s.point_list.getD j ⟨0, 0, 0⟩)

theorem length_gridWrite (data : List ℤ) (i v : ℤ) :
    (gridWrite data i v).length = data.length := by
  unfold gridWrite
  split <;> simp

theorem gridRead_in_range {data : List ℤ} {i : ℤ} (h0 : 0 ≤ i)
    (hl : i.toNat < data.length) :
    gridRead data i = data.get ⟨i.toNat, hl⟩ := by
  unfold gridRead
  rw [dif_pos ⟨h0, hl⟩]

theorem gridRead_ne_marker {data : List ℤ} {i : ℤ} (h : gridRead data i ≠ -2) :
    0 ≤ i ∧ i.toNat < data.length := by
  unfold gridRead at h
  by_cases hc : 0 ≤ i ∧ i.toNat < data.length
  · exact hc
  · rw [dif_neg hc] at h
    exact absurd rfl h

theorem gridRead_mem {data : List ℤ} {i : ℤ} (h : gridRead data i ≠ -2) :
    gridRead data i ∈ data := by
  obtain ⟨h0, hl⟩ := gridRead_ne_marker h
  rw [gridRead_in_range h0 hl]
  exact data.get_mem _ _

theorem gridRead_gridWrite_same {data : List ℤ} {i : ℤ} (v : ℤ) (h0 : 0 ≤ i)
    (hl : i.toNat < data.length) :
    gridRead (gridWrite data i v) i = v := by
  unfold gridWrite
  rw [if_pos h0]
  have hl2 : i.toNat < (data.set i.toNat v).length := by simpa using hl
  rw [gridRead_in_range h0 hl2]
  exact data.get_set_eq ..

theorem gridRead_gridWrite_ne {data : List ℤ} {i j : ℤ} (v : ℤ) (h : i ≠ j) :
    gridRead (gridWrite data i v) j = gridRead data j := by
  unfold gridWrite
  split
  · unfold gridRead
    by_cases hc : 0 ≤ j ∧ j.toNat < data.length
    · have hc2 : 0 ≤ j ∧ j.toNat < (data.set i.toNat v).length := by
        simpa using hc
      rw [dif_pos hc, dif_pos hc2]
      apply data.get_set_ne
      intro he
      exact h (by omega)
    · have hc2 : ¬ (0 ≤ j ∧ j.toNat < (data.set i.toNat v).length) := by
        simpa using hc
      rw [dif_neg hc, dif_neg hc2]
  · rfl

theorem mem_of_mem_gridWrite {data : List ℤ} {i v w : ℤ}
    (h : w ∈ gridWrite data i v) : w ∈ data ∨ w = v := by
  unfold gridWrite at h
  split at h
  · exact List.mem_or_eq_of_mem_set h
  · exact Or.inl h

theorem count_set_of_get {data : List ℤ} {n : ℕ} {v : ℤ}
    (hl : n < data.length) (hget : data.get ⟨n, hl⟩ = NO_SAMPLE)
    (hv : v ≠ NO_SAMPLE) :
    (data.set n v).count NO_SAMPLE + 1 = data.count NO_SAMPLE := by
  induction data generalizing n with
  | nil => simp at hl
  | cons a t ih =>
    cases n with
    | zero =>
      simp only [List.get] at hget
      subst hget
      simp [List.count_cons, hv]
    | succ m =>
      have hmain := @ih m (by simpa using hl) (by simpa using hget)
      by_cases hb : (a == NO_SAMPLE) = true <;>
        simp only [List.set, List.count_cons, hb, if_true, if_false] <;>
        omega

theorem length_eraseIdx_of_lt {l : List ℕ} {n : ℕ} (h : n < l.length) :
    (l.eraseIdx n).length + 1 = l.length := by
  induction l generalizing n with
  | nil => simp at h
  | cons a t ih =>
    cases n with
    | zero => simp [List.eraseIdx]
    | succ m =>
      simp only [List.eraseIdx, List.length_cons]
      rw [← ih (by simpa using h)]

theorem cell_range_of_box {w cs x : ℚ} (hcs : 0 < cs) (hx0 : 0 ≤ x) (hxw : x < w) :
    0 ≤ ⌊x / cs⌋ ∧ ⌊x / cs⌋ < ⌈w / cs⌉ := by
  constructor
  · exact Int.le_floor.mpr (by positivity)
  · apply Int.floor_lt.mpr
    calc x / cs < w / cs := by gcongr
      _ ≤ (⌈w / cs⌉ : ℚ) := Int.le_ceil _

theorem flatten2_range {gw gh : ℤ} {c : ivec2} (hx0 : 0 ≤ c.x) (hx : c.x < gw)
    (hy0 : 0 ≤ c.y) (hy : c.y < gh) :
    0 ≤ flatten2 gw c ∧ flatten2 gw c < gw * gh := by
  unfold flatten2
  have hgw : 0 < gw := lt_of_le_of_lt hx0 hx
  have h1 : gw * (c.y + 1) ≤ gw * gh := mul_le_mul_of_nonneg_left (by linarith) hgw.le
  have h2 : 0 ≤ gw * c.y := mul_nonneg hgw.le hy0
  have e1 : gw * (c.y + 1) = gw * c.y + gw := by ring
  exact ⟨by linarith, by linarith⟩

theorem flatten3_range {gw gh gd : ℤ} {c : ivec3} (hx0 : 0 ≤ c.x) (hx : c.x < gw)
    (hy0 : 0 ≤ c.y) (hy : c.y < gh) (hz0 : 0 ≤ c.z) (hz : c.z < gd) :
    0 ≤ flatten3 gw gd c ∧ flatten3 gw gd c < gw * gh * gd := by
  unfold flatten3
  have hgw : 0 < gw := lt_of_le_of_lt hx0 hx
  have hgd : 0 < gd := lt_of_le_of_lt hz0 hz
  have hz1 : gw * c.z ≤ gw * (gd - 1) := mul_le_mul_of_nonneg_left (by linarith) hgw.le
  have hy1 : gw * gd * c.y ≤ gw * gd * (gh - 1) :=
    mul_le_mul_of_nonneg_left (by linarith) (by positivity)
  have hz2 : 0 ≤ gw * c.z := mul_nonneg hgw.le hz0
  have hy2 : 0 ≤ gw * gd * c.y := mul_nonneg (by positivity) hy0
  have e1 : gw * (gd - 1) = gw * gd - gw := by ring
  have e2 : gw * gd * (gh - 1) = gw * gh * gd - gw * gd := by ring
  exact ⟨by linarith, by linarith⟩

theorem mem_of_mem_eraseIdx' {l : List ℕ} {n : ℕ} {a : ℕ}
    (h : a ∈ l.eraseIdx n) : a ∈ l := by
  induction l generalizing n with
  | nil => simp [List.eraseIdx] at h
  | cons b t ih =>
    cases n with
    | zero =>
      simp only [List.eraseIdx] at h
      exact List.mem_cons_of_mem _ h
    | succ m =>
      simp only [List.eraseIdx] at h
      rcases List.mem_cons.mp h with h | h
      · exact h ▸ List.mem_cons_self _ _
      · exact List.mem_cons_of_mem _ (ih h)

theorem first_accept_2d_sound {dimensions : vec2} {r2 : ℚ} {g : grid}
    {point_list : List vec2} {parent : vec2} {offs : List vec2}
    {cc : vec2 × ivec2}
    (h : first_accept_2d dimensions r2 g point_list parent offs = some cc) :
    attempt_2d dimensions r2 g point_list cc.1 = some cc.2 := by
  induction offs with
  | nil => simp [first_accept_2d] at h
  | cons o rest ih =>
    simp only [first_accept_2d] at h
    rcases ha : attempt_2d dimensions r2 g point_list ⟨parent.x + o.x, parent.y + o.y⟩ with _ | c
    · rw [ha] at h
      exact ih h
    · rw [ha] at h
      simp only [Option.some.injEq] at h
      rw [← h]
      exact ha

theorem attempt_2d_sound {dimensions : vec2} {r2 : ℚ} {g : grid}
    {point_list : List vec2} {cand : vec2} {c : ivec2}
    (h : attempt_2d dimensions r2 g point_list cand = some c) :
    (0 ≤ cand.x ∧ cand.x < dimensions.x ∧ 0 ≤ cand.y ∧ cand.y < dimensions.y) ∧
    c = g.toCell2 cand ∧
    g.get2 (g.toCell2 cand).x (g.toCell2 cand).y = NO_SAMPLE ∧
    neighbor_check_2d g point_list r2 (g.toCell2 cand) cand = true := by
  unfold attempt_2d at h
  split at h
  · exact absurd h (by simp)
  next hx =>
    split at h
    · exact absurd h (by simp)
    next hy =>
      push_neg at hx hy
      simp only [ne_eq] at h
      split at h
      · exact absurd h (by simp)
      next hocc =>
        split at h
        next hnb =>
          simp only [Option.some.injEq] at h
          push_neg at hocc
          exact ⟨⟨hx.1, hx.2, hy.1, hy.2⟩, h.symm, hocc, hnb⟩
        · exact absurd h (by simp)

theorem neighbor_check_2d_sound {g : grid} {point_list : List vec2} {r2 : ℚ}
    {c : ivec2} {cand : vec2}
    (h : neighbor_check_2d g point_list r2 c cand = true)
    {dx dy : ℤ} (hdx1 : -1 ≤ dx) (hdx2 : dx ≤ 1) (hdy1 : -1 ≤ dy) (hdy2 : dy ≤ 1)
    (hnz : ¬(dx = 0 ∧ dy = 0))
    (hxr1 : ¬(c.x + dx < 0 ∨ g.grid_width ≤ c.x + dx))
    (hyr1 : ¬(c.y + dy < 0 ∨ g.grid_height ≤ c.y + dy))
    (ht : g.get2 (c.x + dx) (c.y + dy) ≠ NO_SAMPLE) :
    r2 ≤ distance2_vec2 (point_list.getD (g.get2 (c.x + dx) (c.y + dy)).toNat ⟨0, 0⟩) cand := by
  unfold neighbor_check_2d at h
  rw [List.all_eq_true] at h
  have hy' := h dy (by simp only [List.mem_cons, List.mem_singleton]; omega)
  rw [List.all_eq_true] at hy'
  have hx' := hy' dx (by simp only [List.mem_cons, List.mem_singleton]; omega)
  simp only [if_neg hnz, if_neg hxr1, if_neg hyr1, if_neg ht,
    decide_eq_true_eq] at hx'
  exact hx'

theorem active_pos_of_not_isEmpty {l : List ℕ} (h : ¬(l.isEmpty = true)) :
    0 < l.length := by
  cases l with
  | nil => simp [List.isEmpty] at h
  | cons a t => simp

theorem getD_append_lt {α : Type} {l₁ l₂ : List α} {i : ℕ} {d : α}
    (h : i < l₁.length) :
    (l₁ ++ l₂).getD i d = l₁.getD i d := by
  rw [List.getD_eq_getElem?_getD, List.getD_eq_getElem?_getD,
    List.getElem?_append_left h]

theorem getD_append_len {α : Type} {l : List α} {a d : α} :
    (l ++ [a]).getD l.length d = a := by
  rw [List.getD_eq_getElem?_getD, List.getElem?_append_right (le_refl _)]
  simp

theorem getD_lt_eq_get {α : Type} {l : List α} {i : ℕ} {d : α}
    (h : i < l.length) :
    l.getD i d = l.get ⟨i, h⟩ := by
  rw [List.getD_eq_getElem?_getD, List.getElem?_eq_getElem h]
  rfl

theorem cheb2_le_one_iff {a b : ivec2} :
    cheb2 a b ≤ 1 ↔ |a.x - b.x| ≤ 1 ∧ |a.y - b.y| ≤ 1 := by
  unfold cheb2
  exact max_le_iff

theorem cheb3_le_one_iff {a b : ivec3} :
    cheb3 a b ≤ 1 ↔ |a.x - b.x| ≤ 1 ∧ |a.y - b.y| ≤ 1 ∧ |a.z - b.z| ≤ 1 := by
  unfold cheb3
  rw [max_le_iff, max_le_iff]
  tauto

theorem distance2_vec2_comm (a b : vec2) :
    distance2_vec2 a b = distance2_vec2 b a := by
  unfold distance2_vec2
  ring

theorem distance2_vec3_comm (a b : vec3) :
    distance2_vec3 a b = distance2_vec3 b a := by
  unfold distance2_vec3
  ring

theorem cheb2_comm (a b : ivec2) : cheb2 a b = cheb2 b a := by
  unfold cheb2
  rw [abs_sub_comm, abs_sub_comm a.y]

theorem cheb3_comm (a b : ivec3) : cheb3 a b = cheb3 b a := by
  unfold cheb3
  rw [abs_sub_comm, abs_sub_comm a.y, abs_sub_comm a.z]

theorem toCell2_eq_world {g : grid} {cs : ℚ} (h : g.cell_size = cs) (p : vec2) :
    g.toCell2 p = world_to_cell_2d cs p := by
  unfold grid.toCell2 world_to_cell_2d
  rw [h]

theorem toCell3_eq_world {g : grid} {cs : ℚ} (h : g.cell_size = cs) (p : vec3) :
    g.toCell3 p = world_to_cell_3d cs p := by
  unfold grid.toCell3 world_to_cell_3d
  rw [h]

theorem get2_eq_gridRead (g : grid) (c : ivec2) :
    g.get2 c.x c.y = gridRead g.grid_data (flatten2 g.grid_width c) := rfl

theorem get3_eq_gridRead (g : grid) (c : ivec3) :
    g.get3 c.x c.y c.z = gridRead g.grid_data (flatten3 g.grid_width g.grid_depth c) := rfl

theorem set2_grid_data (g : grid) (v : ℤ) (c : ivec2) :
    (g.set2 v c.x c.y).grid_data = gridWrite g.grid_data (flatten2 g.grid_width c) v := rfl

theorem set3_grid_data (g : grid) (v : ℤ) (c : ivec3) :
    (g.set3 v c.x c.y c.z).grid_data =
      gridWrite g.grid_data (flatten3 g.grid_width g.grid_depth c) v := rfl

theorem ivec2_ext {a b : ivec2} (hx : a.x = b.x) (hy : a.y = b.y) : a = b := by
  cases a
  cases b
  simp_all

theorem ivec3_ext {a b : ivec3} (hx : a.x = b.x) (hy : a.y = b.y) (hz : a.z = b.z) :
    a = b := by
  cases a
  cases b
  simp_all

theorem Inv2_init {dimensions : vec2} {cell_size r2 : ℚ} {seed : vec2}
    (hcs : 0 < cell_size)
    (hsx0 : 0 ≤ seed.x) (hsx : seed.x < dimensions.x)
    (hsy0 : 0 ≤ seed.y) (hsy : seed.y < dimensions.y) :
    Inv2 dimensions cell_size r2 (init_2d dimensions cell_size seed) := by
  have hcx := cell_range_of_box hcs hsx0 hsx
  have hcy := cell_range_of_box hcs hsy0 hsy
  have hfl := @flatten2_range ⌈dimensions.x / cell_size⌉ ⌈dimensions.y / cell_size⌉
    (world_to_cell_2d cell_size seed) hcx.1 hcx.2 hcy.1 hcy.2
  have hlen : (List.replicate (⌈dimensions.x / cell_size⌉ * ⌈dimensions.y / cell_size⌉).toNat NO_SAMPLE).length
      = (⌈dimensions.x / cell_size⌉ * ⌈dimensions.y / cell_size⌉).toNat := by
    simp
  refine ⟨rfl, rfl, rfl, ?_, ?_, rfl, ?_, le_refl _, ?_, ?_, ?_⟩
  · rw [show (init_2d dimensions cell_size seed).g.grid_data
        = gridWrite (List.replicate (⌈dimensions.x / cell_size⌉ * ⌈dimensions.y / cell_size⌉).toNat NO_SAMPLE)
          (flatten2 ⌈dimensions.x / cell_size⌉ (world_to_cell_2d cell_size seed)) 0 from rfl]
    rw [length_gridWrite, hlen]
  · intro v hv
    rw [show (init_2d dimensions cell_size seed).g.grid_data
        = gridWrite (List.replicate (⌈dimensions.x / cell_size⌉ * ⌈dimensions.y / cell_size⌉).toNat NO_SAMPLE)
          (flatten2 ⌈dimensions.x / cell_size⌉ (world_to_cell_2d cell_size seed)) 0 from rfl] at hv
    rcases mem_of_mem_gridWrite hv with hv | hv
    · exact Or.inl (List.eq_of_mem_replicate hv)
    · subst hv
      exact Or.inr ⟨le_refl _, by simp [init_2d]⟩
  · intro a ha
    simp only [init_2d, List.mem_singleton] at ha
    simp [init_2d, ha]
  · intro p hp
    simp only [init_2d, List.mem_singleton] at hp
    subst hp
    exact ⟨hsx0, hsx, hsy0, hsy⟩
  · intro i hi
    simp only [init_2d, List.length_singleton] at hi
    interval_cases i
    rw [show (init_2d dimensions cell_size seed).g.grid_data
        = gridWrite (List.replicate (⌈dimensions.x / cell_size⌉ * ⌈dimensions.y / cell_size⌉).toNat NO_SAMPLE)
          (flatten2 ⌈dimensions.x / cell_size⌉ (world_to_cell_2d cell_size seed)) 0 from rfl]
    rw [show (init_2d dimensions cell_size seed).point_list.getD 0 ⟨0, 0⟩ = seed from rfl]
    rw [show (init_2d dimensions cell_size seed).g.grid_width = ⌈dimensions.x / cell_size⌉ from rfl]
    exact gridRead_gridWrite_same 0 hfl.1 (by rw [hlen]; omega)
  · intro i j hi hj hij hch
    simp only [init_2d, List.length_singleton] at hi hj
    omega

theorem Inv2_step {dimensions : vec2} {cell_size r2 : ℚ} {k : ℤ} {d : Iter2Draws}
    {s : State2} (hcs : 0 < cell_size) (h : Inv2 dimensions cell_size r2 s) :
    Inv2 dimensions cell_size r2 (step_2d dimensions r2 k d s) := by
  unfold step_2d
  split
  · exact h
  next hemp =>
    split
    next cc hfa =>
      obtain ⟨hbox, hcell, hocc, hnb⟩ := attempt_2d_sound (first_accept_2d_sound hfa)
      have htw := toCell2_eq_world h.cs_eq cc.1
      rw [htw] at hcell hocc hnb
      set cl := world_to_cell_2d cell_size cc.1 with hclv
      have hoccR : gridRead s.g.grid_data (flatten2 s.g.grid_width cl) = NO_SAMPLE := by
        rw [← get2_eq_gridRead]
        exact hocc
      have hrng := gridRead_ne_marker
        (show gridRead s.g.grid_data (flatten2 s.g.grid_width cl) ≠ -2 by
          rw [hoccR]; decide)
      have hlenP : (s.point_list ++ [cc.1]).length = s.point_list.length + 1 := by simp
      have key : ∀ i, i < s.point_list.length →
          cheb2 (world_to_cell_2d cell_size (s.point_list.getD i ⟨0, 0⟩)) cl ≤ 1 →
          r2 ≤ distance2_vec2 (s.point_list.getD i ⟨0, 0⟩) cc.1 := by
        intro i hi hch
        have hmem : s.point_list.getD i ⟨0, 0⟩ ∈ s.point_list := by
          rw [getD_lt_eq_get hi]
          exact List.get_mem _ _ _
        have hpb := h.in_box _ hmem
        have hcx := cell_range_of_box hcs hpb.1 hpb.2.1
        have hcy := cell_range_of_box hcs hpb.2.2.1 hpb.2.2.2
        set ci := world_to_cell_2d cell_size (s.point_list.getD i ⟨0, 0⟩) with hciv
        have hcix : ci.x = ⌊(s.point_list.getD i ⟨0, 0⟩).x / cell_size⌋ := rfl
        have hciy : ci.y = ⌊(s.point_list.getD i ⟨0, 0⟩).y / cell_size⌋ := rfl
        have hcx' : 0 ≤ ci.x ∧ ci.x < s.g.grid_width := by
          rw [hcix, h.gw_eq]
          exact hcx
        have hcy' : 0 ≤ ci.y ∧ ci.y < s.g.grid_height := by
          rw [hciy, h.gh_eq]
          exact hcy
        have hd := cheb2_le_one_iff.mp hch
        have hdx := abs_le.mp hd.1
        have hdy := abs_le.mp hd.2
        have hreg := h.cell_reg i hi
        rw [← hciv] at hreg
        have hnz : ¬(ci.x - cl.x = 0 ∧ ci.y - cl.y = 0) := by
          rintro ⟨e1, e2⟩
          have hceq : ci = cl := ivec2_ext (by omega) (by omega)
          rw [hceq, hoccR] at hreg
          unfold NO_SAMPLE at hreg
          omega
        have hxr : ¬(cl.x + (ci.x - cl.x) < 0 ∨ s.g.grid_width ≤ cl.x + (ci.x - cl.x)) := by
          push_neg
          omega
        have hyr : ¬(cl.y + (ci.y - cl.y) < 0 ∨ s.g.grid_height ≤ cl.y + (ci.y - cl.y)) := by
          push_neg
          omega
        have hgeq : s.g.get2 (cl.x + (ci.x - cl.x)) (cl.y + (ci.y - cl.y)) = (i : ℤ) := by
          have e1 : cl.x + (ci.x - cl.x) = ci.x := by ring
          have e2 : cl.y + (ci.y - cl.y) = ci.y := by ring
          rw [e1, e2, get2_eq_gridRead s.g ci]
          exact hreg
        have hsound := neighbor_check_2d_sound hnb hdx.1 hdx.2 hdy.1 hdy.2 hnz hxr hyr
          (by rw [hgeq]; unfold NO_SAMPLE; omega)
        rw [hgeq, Int.toNat_natCast] at hsound
        exact hsound
      rw [hcell]
      refine ⟨h.cs_eq, h.gw_eq, h.gh_eq, ?_, ?_, ?_, ?_, ?_, ?_, ?_, ?_⟩
      · rw [set2_grid_data, length_gridWrite]
        exact h.len_eq
      · intro v hv
        rw [set2_grid_data] at hv
        rcases mem_of_mem_gridWrite hv with hv | hv
        · rcases h.entries v hv with hv2 | hv2
          · exact Or.inl hv2
          · refine Or.inr ⟨hv2.1, ?_⟩
            rw [hlenP]
            omega
        · subst hv
          refine Or.inr ⟨Int.natCast_nonneg _, ?_⟩
          rw [hlenP, Int.toNat_natCast, h.samp_eq]
          omega
      · show s.sample_index + 1 = (s.point_list ++ [cc.1]).length
        rw [hlenP, h.samp_eq]
      · intro a ha
        rcases List.mem_append.mp ha with ha | ha
        · have := h.active_mem a ha
          rw [hlenP]
          omega
        · rw [List.mem_singleton] at ha
          subst ha
          rw [hlenP]
          rw [h.samp_eq]
          omega
      · show (s.active_list ++ [s.sample_index]).length ≤ (s.point_list ++ [cc.1]).length
        have := h.active_len
        simp only [List.length_append, List.length_singleton]
        omega
      · intro p hp
        rcases List.mem_append.mp hp with hp | hp
        · exact h.in_box p hp
        · rw [List.mem_singleton] at hp
          subst hp
          exact hbox
      · intro i hi
        rw [hlenP] at hi
        rw [set2_grid_data]
        have hgwr : (s.g.set2 (s.sample_index : ℤ) cl.x cl.y).grid_width = s.g.grid_width := rfl
        rw [hgwr]
        rcases Nat.lt_succ_iff_lt_or_eq.mp hi with hi | hi
        · rw [getD_append_lt hi]
          have hreg := h.cell_reg i hi
          have hne : flatten2 s.g.grid_width cl ≠
              flatten2 s.g.grid_width (world_to_cell_2d cell_size (s.point_list.getD i ⟨0, 0⟩)) := by
            intro he
            rw [← he, hoccR] at hreg
            unfold NO_SAMPLE at hreg
            omega
          rw [gridRead_gridWrite_ne _ hne]
          exact hreg
        · subst hi
          rw [getD_append_len, ← hclv]
          rw [gridRead_gridWrite_same _ hrng.1 hrng.2]
          rw [h.samp_eq]
      · intro i j hi hj hij hch
        rw [hlenP] at hi hj
        rcases Nat.lt_succ_iff_lt_or_eq.mp hi with hi | hi <;>
          rcases Nat.lt_succ_iff_lt_or_eq.mp hj with hj | hj
        · rw [getD_append_lt hi, getD_append_lt hj] at hch ⊢
          exact h.sep_adj i j hi hj hij hch
        · subst hj
          rw [getD_append_lt hi, getD_append_len] at hch ⊢
          rw [← hclv] at hch
          exact key i hi hch
        · subst hi
          rw [getD_append_len, getD_append_lt hj] at hch ⊢
          rw [← hclv] at hch
          rw [cheb2_comm] at hch
          rw [distance2_vec2_comm]
          exact key j hj hch
        · subst hi
          subst hj
          exact absurd rfl hij
    next hfa =>
      have hpos := active_pos_of_not_isEmpty hemp
      have hlt : d.idxDraw % s.active_list.length < s.active_list.length :=
        Nat.mod_lt _ hpos
      refine ⟨h.cs_eq, h.gw_eq, h.gh_eq, h.len_eq, h.entries, h.samp_eq, ?_, ?_,
        h.in_box, h.cell_reg, h.sep_adj⟩
      · intro a ha
        exact h.active_mem a (mem_of_mem_eraseIdx' ha)
      · show (s.active_list.eraseIdx (d.idxDraw % s.active_list.length)).length ≤
          s.point_list.length
        have := length_eraseIdx_of_lt hlt
        have := h.active_len
        omega

theorem eq_nil_of_isEmpty {α : Type} {l : List α} (h : l.isEmpty = true) : l = [] := by
  cases l with
  | nil => rfl
  | cons a t => simp [List.isEmpty] at h

theorem run_2d_nil (dimensions : vec2) (r2 : ℚ) (k : ℤ) (s : State2) :
    run_2d dimensions r2 k [] s = s := rfl

theorem run_2d_cons (dimensions : vec2) (r2 : ℚ) (k : ℤ) (d : Iter2Draws)
    (ds : List Iter2Draws) (s : State2) :
    run_2d dimensions r2 k (d :: ds) s =
      if s.active_list.isEmpty = true then s
      else run_2d dimensions r2 k ds (step_2d dimensions r2 k d s) := rfl

theorem Inv2_run {dimensions : vec2} {cell_size r2 : ℚ} {k : ℤ}
    {ds : List Iter2Draws} {s : State2}
    (hcs : 0 < cell_size) (h : Inv2 dimensions cell_size r2 s) :
    Inv2 dimensions cell_size r2 (run_2d dimensions r2 k ds s) := by
  induction ds generalizing s with
  | nil => exact h
  | cons d ds ih =>
    unfold run_2d
    split
    · exact h
    · exact ih (Inv2_step hcs h)

theorem measure_2d_step_lt {dimensions : vec2} {r2 : ℚ} {k : ℤ} {d : Iter2Draws}
    {s : State2} (hne : ¬(s.active_list.isEmpty = true)) :
    measure_2d (step_2d dimensions r2 k d s) < measure_2d s := by
  have hpos := active_pos_of_not_isEmpty hne
  unfold step_2d
  rw [if_neg hne]
  split
  next cc hfa =>
    obtain ⟨hbox, hcell, hocc, hnb⟩ := attempt_2d_sound (first_accept_2d_sound hfa)
    rw [get2_eq_gridRead] at hocc
    have hrng := gridRead_ne_marker
      (show gridRead s.g.grid_data (flatten2 s.g.grid_width (s.g.toCell2 cc.1)) ≠ -2 by
        rw [hocc]; decide)
    have hget : s.g.grid_data.get ⟨(flatten2 s.g.grid_width (s.g.toCell2 cc.1)).toNat, hrng.2⟩
        = NO_SAMPLE := by
      rw [← gridRead_in_range hrng.1 hrng.2]
      exact hocc
    have hcnt := count_set_of_get hrng.2 hget
      (show ((s.sample_index : ℤ)) ≠ NO_SAMPLE by unfold NO_SAMPLE; omega)
    unfold measure_2d
    show 2 * List.count NO_SAMPLE (s.g.set2 (s.sample_index : ℤ) cc.2.x cc.2.y).grid_data +
        (s.active_list ++ [s.sample_index]).length <
      2 * List.count NO_SAMPLE s.g.grid_data + s.active_list.length
    rw [hcell, set2_grid_data]
    unfold gridWrite
    rw [if_pos hrng.1]
    simp only [List.length_append, List.length_singleton]
    omega
  next hfa =>
    unfold measure_2d
    show 2 * List.count NO_SAMPLE s.g.grid_data +
        (s.active_list.eraseIdx (d.idxDraw % s.active_list.length)).length <
      2 * List.count NO_SAMPLE s.g.grid_data + s.active_list.length
    have := length_eraseIdx_of_lt (Nat.mod_lt d.idxDraw hpos)
    omega

theorem run_2d_empties {dimensions : vec2} {r2 : ℚ} {k : ℤ} :
    ∀ (ds : List Iter2Draws) (s : State2), measure_2d s ≤ ds.length →
    (run_2d dimensions r2 k ds s).active_list = [] := by
  intro ds
  induction ds with
  | nil =>
    intro s hm
    unfold run_2d
    unfold measure_2d at hm
    simp only [List.length_nil, Nat.le_zero] at hm
    exact List.length_eq_zero.mp (by omega)
  | cons d ds ih =>
    intro s hm
    unfold run_2d
    split
    next he => exact eq_nil_of_isEmpty he
    next he =>
      apply ih
      have hlt := @measure_2d_step_lt dimensions r2 k d s he
      simp only [List.length_cons] at hm
      omega

theorem run_2d_empty_id {dimensions : vec2} {r2 : ℚ} {k : ℤ}
    (ds : List Iter2Draws) {s : State2} (h : s.active_list.isEmpty = true) :
    run_2d dimensions r2 k ds s = s := by
  cases ds with
  | nil => rfl
  | cons d t =>
    unfold run_2d
    rw [if_pos h]

theorem run_2d_append {dimensions : vec2} {r2 : ℚ} {k : ℤ}
    (ds₁ ds₂ : List Iter2Draws) (s : State2) :
    run_2d dimensions r2 k (ds₁ ++ ds₂) s =
      run_2d dimensions r2 k ds₂ (run_2d dimensions r2 k ds₁ s) := by
  induction ds₁ generalizing s with
  | nil => rfl
  | cons d t ih =>
    simp only [List.cons_append, run_2d_cons]
    by_cases he : s.active_list.isEmpty = true
    · rw [if_pos he, if_pos he]
      exact (run_2d_empty_id ds₂ he).symm
    · rw [if_neg he, if_neg he]
      exact ih (step_2d dimensions r2 k d s)

theorem step_2d_points {dimensions : vec2} {r2 : ℚ} {k : ℤ} {d : Iter2Draws}
    {s : State2} :
    ∃ t, (step_2d dimensions r2 k d s).point_list = s.point_list ++ t := by
  unfold step_2d
  split
  · exact ⟨[], by simp⟩
  split
  next cc hfa => exact ⟨[cc.1], rfl⟩
  next hfa => exact ⟨[], by simp⟩

theorem run_2d_points {dimensions : vec2} {r2 : ℚ} {k : ℤ} :
    ∀ (ds : List Iter2Draws) (s : State2),
    ∃ t, (run_2d dimensions r2 k ds s).point_list = s.point_list ++ t := by
  intro ds
  induction ds with
  | nil => exact fun s => ⟨[], by rw [run_2d_nil]; simp⟩
  | cons d t ih =>
    intro s
    unfold run_2d
    split
    · exact ⟨[], by simp⟩
    · obtain ⟨t1, ht1⟩ := @step_2d_points dimensions r2 k d s
      obtain ⟨t2, ht2⟩ := ih (step_2d dimensions r2 k d s)
      exact ⟨t1 ++ t2, by rw [ht2, ht1, List.append_assoc]⟩

theorem first_accept_3d_sound {dimensions : vec3} {r2 : ℚ} {g : grid}
    {point_list : List vec3} {parent : vec3} {offs : List vec3}
    {cc : vec3 × ivec3}
    (h : first_accept_3d dimensions r2 g point_list parent offs = some cc) :
    attempt_3d dimensions r2 g point_list cc.1 = some cc.2 := by
  induction offs with
  | nil => simp [first_accept_3d] at h
  | cons o rest ih =>
    simp only [first_accept_3d] at h
    rcases ha : attempt_3d dimensions r2 g point_list
        ⟨parent.x + o.x, parent.y + o.y, parent.z + o.z⟩ with _ | c
    · rw [ha] at h
      exact ih h
    · rw [ha] at h
      simp only [Option.some.injEq] at h
      rw [← h]
      exact ha

theorem attempt_3d_sound {dimensions : vec3} {r2 : ℚ} {g : grid}
    {point_list : List vec3} {cand : vec3} {c : ivec3}
    (h : attempt_3d dimensions r2 g point_list cand = some c) :
    (0 ≤ cand.x ∧ cand.x < dimensions.x ∧ 0 ≤ cand.y ∧ cand.y < dimensions.y ∧
      0 ≤ cand.z ∧ cand.z < dimensions.z) ∧
    c = g.toCell3 cand ∧
    g.get3 (g.toCell3 cand).x (g.toCell3 cand).y (g.toCell3 cand).z = NO_SAMPLE ∧
    neighbor_check_3d g point_list r2 (g.toCell3 cand) cand = true := by
  unfold attempt_3d at h
  split at h
  · exact absurd h (by simp)
  next hx =>
    split at h
    · exact absurd h (by simp)
    next hy =>
      split at h
      · exact absurd h (by simp)
      next hz =>
        push_neg at hx hy hz
        simp only [ne_eq] at h
        split at h
        · exact absurd h (by simp)
        next hocc =>
          split at h
          next hnb =>
            simp only [Option.some.injEq] at h
            push_neg at hocc
            exact ⟨⟨hx.1, hx.2, hy.1, hy.2, hz.1, hz.2⟩, h.symm, hocc, hnb⟩
          · exact absurd h (by simp)

theorem neighbor_check_3d_sound {g : grid} {point_list : List vec3} {r2 : ℚ}
    {c : ivec3} {cand : vec3}
    (h : neighbor_check_3d g point_list r2 c cand = true)
    {dx dy dz : ℤ} (hdx1 : -1 ≤ dx) (hdx2 : dx ≤ 1) (hdy1 : -1 ≤ dy) (hdy2 : dy ≤ 1)
    (hdz1 : -1 ≤ dz) (hdz2 : dz ≤ 1)
    (hnz : ¬(dx = 0 ∧ dy = 0 ∧ dz = 0))
    (hxr1 : ¬(c.x + dx < 0 ∨ g.grid_width ≤ c.x + dx))
    (hyr1 : ¬(c.y + dy < 0 ∨ g.grid_height ≤ c.y + dy))
    (hzr1 : ¬(c.z + dz < 0 ∨ g.grid_depth ≤ c.z + dz))
    (ht : g.get3 (c.x + dx) (c.y + dy) (c.z + dz) ≠ NO_SAMPLE) :
    r2 ≤ distance2_vec3
      (point_list.getD (g.get3 (c.x + dx) (c.y + dy) (c.z + dz)).toNat ⟨0, 0, 0⟩) cand := by
  unfold neighbor_check_3d at h
  rw [List.all_eq_true] at h
  have hy' := h dy (by simp only [List.mem_cons, List.mem_singleton]; omega)
  rw [List.all_eq_true] at hy'
  have hx' := hy' dx (by simp only [List.mem_cons, List.mem_singleton]; omega)
  rw [List.all_eq_true] at hx'
  have hz' := hx' dz (by simp only [List.mem_cons, List.mem_singleton]; omega)
  simp only [if_neg hnz, if_neg hxr1, if_neg hyr1, if_neg hzr1, if_neg ht,
    decide_eq_true_eq] at hz'
  exact hz'

theorem Inv3_init {dimensions : vec3} {cell_size r2 : ℚ} {seed : vec3}
    (hcs : 0 < cell_size)
    (hsx0 : 0 ≤ seed.x) (hsx : seed.x < dimensions.x)
    (hsy0 : 0 ≤ seed.y) (hsy : seed.y < dimensions.y)
    (hsz0 : 0 ≤ seed.z) (hsz : seed.z < dimensions.z) :
    Inv3 dimensions cell_size r2 (init_3d dimensions cell_size seed) := by
  have hcx := cell_range_of_box hcs hsx0 hsx
  have hcy := cell_range_of_box hcs hsy0 hsy
  have hcz := cell_range_of_box hcs hsz0 hsz
  have hfl := @flatten3_range ⌈dimensions.x / cell_size⌉ ⌈dimensions.y / cell_size⌉
    ⌈dimensions.z / cell_size⌉ (world_to_cell_3d cell_size seed)
    hcx.1 hcx.2 hcy.1 hcy.2 hcz.1 hcz.2
  have hlen : (List.replicate
      (⌈dimensions.x / cell_size⌉ * ⌈dimensions.y / cell_size⌉ * ⌈dimensions.z / cell_size⌉).toNat
      NO_SAMPLE).length
      = (⌈dimensions.x / cell_size⌉ * ⌈dimensions.y / cell_size⌉ * ⌈dimensions.z / cell_size⌉).toNat := by
    simp
  refine ⟨rfl, rfl, rfl, rfl, ?_, ?_, rfl, ?_, le_refl _, ?_, ?_, ?_⟩
  · rw [show (init_3d dimensions cell_size seed).g.grid_data
        = gridWrite (List.replicate
            (⌈dimensions.x / cell_size⌉ * ⌈dimensions.y / cell_size⌉ * ⌈dimensions.z / cell_size⌉).toNat NO_SAMPLE)
          (flatten3 ⌈dimensions.x / cell_size⌉ ⌈dimensions.z / cell_size⌉
            (world_to_cell_3d cell_size seed)) 0 from rfl]
    rw [length_gridWrite, hlen]
  · intro v hv
    rw [show (init_3d dimensions cell_size seed).g.grid_data
        = gridWrite (List.replicate
            (⌈dimensions.x / cell_size⌉ * ⌈dimensions.y / cell_size⌉ * ⌈dimensions.z / cell_size⌉).toNat NO_SAMPLE)
          (flatten3 ⌈dimensions.x / cell_size⌉ ⌈dimensions.z / cell_size⌉
            (world_to_cell_3d cell_size seed)) 0 from rfl] at hv
    rcases mem_of_mem_gridWrite hv with hv | hv
    · exact Or.inl (List.eq_of_mem_replicate hv)
    · subst hv
      exact Or.inr ⟨le_refl _, by simp [init_3d]⟩
  · intro a ha
    simp only [init_3d, List.mem_singleton] at ha
    simp [init_3d, ha]
  · intro p hp
    simp only [init_3d, List.mem_singleton] at hp
    subst hp
    exact ⟨hsx0, hsx, hsy0, hsy, hsz0, hsz⟩
  · intro i hi
    simp only [init_3d, List.length_singleton] at hi
    interval_cases i
    rw [show (init_3d dimensions cell_size seed).g.grid_data
        = gridWrite (List.replicate
            (⌈dimensions.x / cell_size⌉ * ⌈dimensions.y / cell_size⌉ * ⌈dimensions.z / cell_size⌉).toNat NO_SAMPLE)
          (flatten3 ⌈dimensions.x / cell_size⌉ ⌈dimensions.z / cell_size⌉
            (world_to_cell_3d cell_size seed)) 0 from rfl]
    rw [show (init_3d dimensions cell_size seed).point_list.getD 0 ⟨0, 0, 0⟩ = seed from rfl]
    rw [show (init_3d dimensions cell_size seed).g.grid_width = ⌈dimensions.x / cell_size⌉ from rfl]
    rw [show (init_3d dimensions cell_size seed).g.grid_depth = ⌈dimensions.z / cell_size⌉ from rfl]
    exact gridRead_gridWrite_same 0 hfl.1 (by rw [hlen]; omega)
  · intro i j hi hj hij hch
    simp only [init_3d, List.length_singleton] at hi hj
    omega

theorem Inv3_step {dimensions : vec3} {cell_size r2 : ℚ} {k : ℤ} {d : Iter3Draws}
    {s : State3} (hcs : 0 < cell_size) (h : Inv3 dimensions cell_size r2 s) :
    Inv3 dimensions cell_size r2 (step_3d dimensions r2 k d s) := by
  unfold step_3d
  split
  · exact h
  next hemp =>
    split
    next cc hfa =>
      obtain ⟨hbox, hcell, hocc, hnb⟩ := attempt_3d_sound (first_accept_3d_sound hfa)
      have htw := toCell3_eq_world h.cs_eq cc.1
      rw [htw] at hcell hocc hnb
      set cl := world_to_cell_3d cell_size cc.1 with hclv
      have hoccR : gridRead s.g.grid_data
          (flatten3 s.g.grid_width s.g.grid_depth cl) = NO_SAMPLE := by
        rw [← get3_eq_gridRead]
        exact hocc
      have hrng := gridRead_ne_marker
        (show gridRead s.g.grid_data (flatten3 s.g.grid_width s.g.grid_depth cl) ≠ -2 by
          rw [hoccR]; decide)
      have hlenP : (s.point_list ++ [cc.1]).length = s.point_list.length + 1 := by simp
      have key : ∀ i, i < s.point_list.length →
          cheb3 (world_to_cell_3d cell_size (s.point_list.getD i ⟨0, 0, 0⟩)) cl ≤ 1 →
          r2 ≤ distance2_vec3 (s.point_list.getD i ⟨0, 0, 0⟩) cc.1 := by
        intro i hi hch
        have hmem : s.point_list.getD i ⟨0, 0, 0⟩ ∈ s.point_list := by
          rw [getD_lt_eq_get hi]
          exact List.get_mem _ _ _
        have hpb := h.in_box _ hmem
        have hcx := cell_range_of_box hcs hpb.1 hpb.2.1
        have hcy := cell_range_of_box hcs hpb.2.2.1 hpb.2.2.2.1
        have hcz := cell_range_of_box hcs hpb.2.2.2.2.1 hpb.2.2.2.2.2
        set ci := world_to_cell_3d cell_size (s.point_list.getD i ⟨0, 0, 0⟩) with hciv
        have hcix : ci.x = ⌊(s.point_list.getD i ⟨0, 0, 0⟩).x / cell_size⌋ := rfl
        have hciy : ci.y = ⌊(s.point_list.getD i ⟨0, 0, 0⟩).y / cell_size⌋ := rfl
        have hciz : ci.z = ⌊(s.point_list.getD i ⟨0, 0, 0⟩).z / cell_size⌋ := rfl
        have hcx' : 0 ≤ ci.x ∧ ci.x < s.g.grid_width := by
          rw [hcix, h.gw_eq]
          exact hcx
        have hcy' : 0 ≤ ci.y ∧ ci.y < s.g.grid_height := by
          rw [hciy, h.gh_eq]
          exact hcy
        have hcz' : 0 ≤ ci.z ∧ ci.z < s.g.grid_depth := by
          rw [hciz, h.gd_eq]
          exact hcz
        have hd := cheb3_le_one_iff.mp hch
        have hdx := abs_le.mp hd.1
        have hdy := abs_le.mp hd.2.1
        have hdz := abs_le.mp hd.2.2
        have hreg := h.cell_reg i hi
        rw [← hciv] at hreg
        have hnz : ¬(ci.x - cl.x = 0 ∧ ci.y - cl.y = 0 ∧ ci.z - cl.z = 0) := by
          rintro ⟨e1, e2, e3⟩
          have hceq : ci = cl := ivec3_ext (by omega) (by omega) (by omega)
          rw [hceq, hoccR] at hreg
          unfold NO_SAMPLE at hreg
          omega
        have hxr : ¬(cl.x + (ci.x - cl.x) < 0 ∨ s.g.grid_width ≤ cl.x + (ci.x - cl.x)) := by
          push_neg
          omega
        have hyr : ¬(cl.y + (ci.y - cl.y) < 0 ∨ s.g.grid_height ≤ cl.y + (ci.y - cl.y)) := by
          push_neg
          omega
        have hzr : ¬(cl.z + (ci.z - cl.z) < 0 ∨ s.g.grid_depth ≤ cl.z + (ci.z - cl.z)) := by
          push_neg
          omega
        have hgeq : s.g.get3 (cl.x + (ci.x - cl.x)) (cl.y + (ci.y - cl.y))
            (cl.z + (ci.z - cl.z)) = (i : ℤ) := by
          have e1 : cl.x + (ci.x - cl.x) = ci.x := by ring
          have e2 : cl.y + (ci.y - cl.y) = ci.y := by ring
          have e3 : cl.z + (ci.z - cl.z) = ci.z := by ring
          rw [e1, e2, e3, get3_eq_gridRead s.g ci]
          exact hreg
        have hsound := neighbor_check_3d_sound hnb hdx.1 hdx.2 hdy.1 hdy.2 hdz.1 hdz.2
          hnz hxr hyr hzr (by rw [hgeq]; unfold NO_SAMPLE; omega)
        rw [hgeq, Int.toNat_natCast] at hsound
        exact hsound
      rw [hcell]
      refine ⟨h.cs_eq, h.gw_eq, h.gh_eq, h.gd_eq, ?_, ?_, ?_, ?_, ?_, ?_, ?_, ?_⟩
      · rw [set3_grid_data, length_gridWrite]
        exact h.len_eq
      · intro v hv
        rw [set3_grid_data] at hv
        rcases mem_of_mem_gridWrite hv with hv | hv
        · rcases h.entries v hv with hv2 | hv2
          · exact Or.inl hv2
          · refine Or.inr ⟨hv2.1, ?_⟩
            rw [hlenP]
            omega
        · subst hv
          refine Or.inr ⟨Int.natCast_nonneg _, ?_⟩
          rw [hlenP, Int.toNat_natCast, h.samp_eq]
          omega
      · show s.sample_index + 1 = (s.point_list ++ [cc.1]).length
        rw [hlenP, h.samp_eq]
      · intro a ha
        rcases List.mem_append.mp ha with ha | ha
        · have := h.active_mem a ha
          rw [hlenP]
          omega
        · rw [List.mem_singleton] at ha
          subst ha
          rw [hlenP]
          rw [h.samp_eq]
          omega
      · show (s.active_list ++ [s.sample_index]).length ≤ (s.point_list ++ [cc.1]).length
        have := h.active_len
        simp only [List.length_append, List.length_singleton]
        omega
      · intro p hp
        rcases List.mem_append.mp hp with hp | hp
        · exact h.in_box p hp
        · rw [List.mem_singleton] at hp
          subst hp
          exact hbox
      · intro i hi
        rw [hlenP] at hi
        rw [set3_grid_data]
        have hgwr : (s.g.set3 (s.sample_index : ℤ) cl.x cl.y cl.z).grid_width
            = s.g.grid_width := rfl
        have hgdr : (s.g.set3 (s.sample_index : ℤ) cl.x cl.y cl.z).grid_depth
            = s.g.grid_depth := rfl
        rw [hgwr, hgdr]
        rcases Nat.lt_succ_iff_lt_or_eq.mp hi with hi | hi
        · rw [getD_append_lt hi]
          have hreg := h.cell_reg i hi
          have hne : flatten3 s.g.grid_width s.g.grid_depth cl ≠
              flatten3 s.g.grid_width s.g.grid_depth
                (world_to_cell_3d cell_size (s.point_list.getD i ⟨0, 0, 0⟩)) := by
            intro he
            rw [← he, hoccR] at hreg
            unfold NO_SAMPLE at hreg
            omega
          rw [gridRead_gridWrite_ne _ hne]
          exact hreg
        · subst hi
          rw [getD_append_len, ← hclv]
          rw [gridRead_gridWrite_same _ hrng.1 hrng.2]
          rw [h.samp_eq]
      · intro i j hi hj hij hch
        rw [hlenP] at hi hj
        rcases Nat.lt_succ_iff_lt_or_eq.mp hi with hi | hi <;>
          rcases Nat.lt_succ_iff_lt_or_eq.mp hj with hj | hj
        · rw [getD_append_lt hi, getD_append_lt hj] at hch ⊢
          exact h.sep_adj i j hi hj hij hch
        · subst hj
          rw [getD_append_lt hi, getD_append_len] at hch ⊢
          rw [← hclv] at hch
          exact key i hi hch
        · subst hi
          rw [getD_append_len, getD_append_lt hj] at hch ⊢
          rw [← hclv] at hch
          rw [cheb3_comm] at hch
          rw [distance2_vec3_comm]
          exact key j hj hch
        · subst hi
          subst hj
          exact absurd rfl hij
    next hfa =>
      have hpos := active_pos_of_not_isEmpty hemp
      have hlt : d.idxDraw % s.active_list.length < s.active_list.length :=
        Nat.mod_lt _ hpos
      refine ⟨h.cs_eq, h.gw_eq, h.gh_eq, h.gd_eq, h.len_eq, h.entries, h.samp_eq, ?_, ?_,
        h.in_box, h.cell_reg, h.sep_adj⟩
      · intro a ha
        exact h.active_mem a (mem_of_mem_eraseIdx' ha)
      · show (s.active_list.eraseIdx (d.idxDraw % s.active_list.length)).length ≤
          s.point_list.length
        have := length_eraseIdx_of_lt hlt
        have := h.active_len
        omega

theorem run_3d_nil (dimensions : vec3) (r2 : ℚ) (k : ℤ) (s : State3) :
    run_3d dimensions r2 k [] s = s := rfl

theorem run_3d_cons (dimensions : vec3) (r2 : ℚ) (k : ℤ) (d : Iter3Draws)
    (ds : List Iter3Draws) (s : State3) :
    run_3d dimensions r2 k (d :: ds) s =
      if s.active_list.isEmpty = true then s
      else run_3d dimensions r2 k ds (step_3d dimensions r2 k d s) := rfl

theorem Inv3_run {dimensions : vec3} {cell_size r2 : ℚ} {k : ℤ}
    {ds : List Iter3Draws} {s : State3}
    (hcs : 0 < cell_size) (h : Inv3 dimensions cell_size r2 s) :
    Inv3 dimensions cell_size r2 (run_3d dimensions r2 k ds s) := by
  induction ds generalizing s with
  | nil => exact h
  | cons d ds ih =>
    unfold run_3d
    split
    · exact h
    · exact ih (Inv3_step hcs h)

theorem measure_3d_step_lt {dimensions : vec3} {r2 : ℚ} {k : ℤ} {d : Iter3Draws}
    {s : State3} (hne : ¬(s.active_list.isEmpty = true)) :
    measure_3d (step_3d dimensions r2 k d s) < measure_3d s := by
  have hpos := active_pos_of_not_isEmpty hne
  unfold step_3d
  rw [if_neg hne]
  split
  next cc hfa =>
    obtain ⟨hbox, hcell, hocc, hnb⟩ := attempt_3d_sound (first_accept_3d_sound hfa)
    rw [get3_eq_gridRead] at hocc
    have hrng := gridRead_ne_marker
      (show gridRead s.g.grid_data
          (flatten3 s.g.grid_width s.g.grid_depth (s.g.toCell3 cc.1)) ≠ -2 by
        rw [hocc]; decide)
    have hget : s.g.grid_data.get
        ⟨(flatten3 s.g.grid_width s.g.grid_depth (s.g.toCell3 cc.1)).toNat, hrng.2⟩
        = NO_SAMPLE := by
      rw [← gridRead_in_range hrng.1 hrng.2]
      exact hocc
    have hcnt := count_set_of_get hrng.2 hget
      (show ((s.sample_index : ℤ)) ≠ NO_SAMPLE by unfold NO_SAMPLE; omega)
    unfold measure_3d
    show 2 * List.count NO_SAMPLE
        (s.g.set3 (s.sample_index : ℤ) cc.2.x cc.2.y cc.2.z).grid_data +
        (s.active_list ++ [s.sample_index]).length <
      2 * List.count NO_SAMPLE s.g.grid_data + s.active_list.length
    rw [hcell, set3_grid_data]
    unfold gridWrite
    rw [if_pos hrng.1]
    simp only [List.length_append, List.length_singleton]
    omega
  next hfa =>
    unfold measure_3d
    show 2 * List.count NO_SAMPLE s.g.grid_data +
        (s.active_list.eraseIdx (d.idxDraw % s.active_list.length)).length <
      2 * List.count NO_SAMPLE s.g.grid_data + s.active_list.length
    have := length_eraseIdx_of_lt (Nat.mod_lt d.idxDraw hpos)
    omega

theorem run_3d_empties {dimensions : vec3} {r2 : ℚ} {k : ℤ} :
    ∀ (ds : List Iter3Draws) (s : State3), measure_3d s ≤ ds.length →
    (run_3d dimensions r2 k ds s).active_list = [] := by
  intro ds
  induction ds with
  | nil =>
    intro s hm
    unfold run_3d
    unfold measure_3d at hm
    simp only [List.length_nil, Nat.le_zero] at hm
    exact List.length_eq_zero.mp (by omega)
  | cons d ds ih =>
    intro s hm
    unfold run_3d
    split
    next he => exact eq_nil_of_isEmpty he
    next he =>
      apply ih
      have hlt := @measure_3d_step_lt dimensions r2 k d s he
      simp only [List.length_cons] at hm
      omega

theorem run_3d_empty_id {dimensions : vec3} {r2 : ℚ} {k : ℤ}
    (ds : List Iter3Draws) {s : State3} (h : s.active_list.isEmpty = true) :
    run_3d dimensions r2 k ds s = s := by
  cases ds with
  | nil => rfl
  | cons d t =>
    unfold run_3d
    rw [if_pos h]

theorem run_3d_append {dimensions : vec3} {r2 : ℚ} {k : ℤ}
    (ds₁ ds₂ : List Iter3Draws) (s : State3) :
    run_3d dimensions r2 k (ds₁ ++ ds₂) s =
      run_3d dimensions r2 k ds₂ (run_3d dimensions r2 k ds₁ s) := by
  induction ds₁ generalizing s with
  | nil => rfl
  | cons d t ih =>
    simp only [List.cons_append, run_3d_cons]
    by_cases he : s.active_list.isEmpty = true
    · rw [if_pos he, if_pos he]
      exact (run_3d_empty_id ds₂ he).symm
    · rw [if_neg he, if_neg he]
      exact ih (step_3d dimensions r2 k d s)

theorem step_3d_points {dimensions : vec3} {r2 : ℚ} {k : ℤ} {d : Iter3Draws}
    {s : State3} :
    ∃ t, (step_3d dimensions r2 k d s).point_list = s.point_list ++ t := by
  unfold step_3d
  split
  · exact ⟨[], by simp⟩
  split
  next cc hfa => exact ⟨[cc.1], rfl⟩
  next hfa => exact ⟨[], by simp⟩

theorem run_3d_points {dimensions : vec3} {r2 : ℚ} {k : ℤ} :
    ∀ (ds : List Iter3Draws) (s : State3),
    ∃ t, (run_3d dimensions r2 k ds s).point_list = s.point_list ++ t := by
  intro ds
  induction ds with
  | nil => exact fun s => ⟨[], by rw [run_3d_nil]; simp⟩
  | cons d t ih =>
    intro s
    unfold run_3d
    split
    · exact ⟨[], by simp⟩
    · obtain ⟨t1, ht1⟩ := @step_3d_points dimensions r2 k d s
      obtain ⟨t2, ht2⟩ := ih (step_3d dimensions r2 k d s)
      exact ⟨t1 ++ t2, by rw [ht2, ht1, List.append_assoc]⟩

theorem step_2d_k_nonpos {dimensions : vec2} {r2 : ℚ} {k : ℤ} {d : Iter2Draws}
    {s : State2} (hk : k ≤ 0) (hne : ¬(s.active_list.isEmpty = true)) :
    step_2d dimensions r2 k d s =
      { s with active_list := s.active_list.eraseIdx (d.idxDraw % s.active_list.length) } := by
  unfold step_2d
  rw [if_neg hne]
  have hkn : k.toNat = 0 := by omega
  rw [hkn]
  rfl

theorem step_3d_k_nonpos {dimensions : vec3} {r2 : ℚ} {k : ℤ} {d : Iter3Draws}
    {s : State3} (hk : k ≤ 0) (hne : ¬(s.active_list.isEmpty = true)) :
    step_3d dimensions r2 k d s =
      { s with active_list := s.active_list.eraseIdx (d.idxDraw % s.active_list.length) } := by
  unfold step_3d
  rw [if_neg hne]
  have hkn : k.toNat = 0 := by omega
  rw [hkn]
  rfl

theorem fpds2_k_nonpos {k : ℤ} (hk : k ≤ 0) (dimensions : vec2) (cell_size r2 : ℚ)
    (seed : vec2) (draws : List Iter2Draws) :
    fast_poisson_disk_2d dimensions cell_size r2 k seed draws = [seed] := by
  unfold fast_poisson_disk_2d
  cases draws with
  | nil => rfl
  | cons d t =>
    rw [run_2d_cons]
    have hne : ¬((init_2d dimensions cell_size seed).active_list.isEmpty = true) := by
      rw [show (init_2d dimensions cell_size seed).active_list = [0] from rfl]
      simp
    rw [if_neg hne, step_2d_k_nonpos hk hne]
    have hact : ({ init_2d dimensions cell_size seed with
        active_list := (init_2d dimensions cell_size seed).active_list.eraseIdx
          (d.idxDraw % (init_2d dimensions cell_size seed).active_list.length) } : State2).active_list
        = [] := by
      show ([0] : List ℕ).eraseIdx (d.idxDraw % 1) = []
      rw [Nat.mod_one]
      rfl
    rw [run_2d_empty_id t (by rw [hact]; rfl)]
    rfl

theorem fpds3_k_nonpos {k : ℤ} (hk : k ≤ 0) (dimensions : vec3) (cell_size r2 : ℚ)
    (seed : vec3) (draws : List Iter3Draws) :
    fast_poisson_disk_3d dimensions cell_size r2 k seed draws = [seed] := by
  unfold fast_poisson_disk_3d
  cases draws with
  | nil => rfl
  | cons d t =>
    rw [run_3d_cons]
    have hne : ¬((init_3d dimensions cell_size seed).active_list.isEmpty = true) := by
      rw [show (init_3d dimensions cell_size seed).active_list = [0] from rfl]
      simp
    rw [if_neg hne, step_3d_k_nonpos hk hne]
    have hact : ({ init_3d dimensions cell_size seed with
        active_list := (init_3d dimensions cell_size seed).active_list.eraseIdx
          (d.idxDraw % (init_3d dimensions cell_size seed).active_list.length) } : State3).active_list
        = [] := by
      show ([0] : List ℕ).eraseIdx (d.idxDraw % 1) = []
      rw [Nat.mod_one]
      rfl
    rw [run_3d_empty_id t (by rw [hact]; rfl)]
    rfl

theorem step_2d_grid_char (dimensions : vec2) (r2 : ℚ) (k : ℤ) (d : Iter2Draws)
    (s : State2) :
    (step_2d dimensions r2 k d s).g.grid_data = s.g.grid_data ∨
    (∃ fl : ℤ, gridRead s.g.grid_data fl = NO_SAMPLE ∧ 0 ≤ fl ∧
      fl.toNat < s.g.grid_data.length ∧
      (step_2d dimensions r2 k d s).g.grid_data =
        gridWrite s.g.grid_data fl (s.sample_index : ℤ)) := by
  unfold step_2d
  split
  · exact Or.inl rfl
  split
  next cc hfa =>
    obtain ⟨hbox, hcell, hocc, hnb⟩ := attempt_2d_sound (first_accept_2d_sound hfa)
    rw [get2_eq_gridRead] at hocc
    have hrng := gridRead_ne_marker
      (show gridRead s.g.grid_data (flatten2 s.g.grid_width (s.g.toCell2 cc.1)) ≠ -2 by
        rw [hocc]; decide)
    refine Or.inr ⟨flatten2 s.g.grid_width (s.g.toCell2 cc.1), hocc, hrng.1, hrng.2, ?_⟩
    show (s.g.set2 (s.sample_index : ℤ) cc.2.x cc.2.y).grid_data = _
    rw [hcell, set2_grid_data]
  next hfa => exact Or.inl rfl

theorem step_3d_grid_char (dimensions : vec3) (r2 : ℚ) (k : ℤ) (d : Iter3Draws)
    (s : State3) :
    (step_3d dimensions r2 k d s).g.grid_data = s.g.grid_data ∨
    (∃ fl : ℤ, gridRead s.g.grid_data fl = NO_SAMPLE ∧ 0 ≤ fl ∧
      fl.toNat < s.g.grid_data.length ∧
      (step_3d dimensions r2 k d s).g.grid_data =
        gridWrite s.g.grid_data fl (s.sample_index : ℤ)) := by
  unfold step_3d
  split
  · exact Or.inl rfl
  split
  next cc hfa =>
    obtain ⟨hbox, hcell, hocc, hnb⟩ := attempt_3d_sound (first_accept_3d_sound hfa)
    rw [get3_eq_gridRead] at hocc
    have hrng := gridRead_ne_marker
      (show gridRead s.g.grid_data
          (flatten3 s.g.grid_width s.g.grid_depth (s.g.toCell3 cc.1)) ≠ -2 by
        rw [hocc]; decide)
    refine Or.inr ⟨flatten3 s.g.grid_width s.g.grid_depth (s.g.toCell3 cc.1),
      hocc, hrng.1, hrng.2, ?_⟩
    show (s.g.set3 (s.sample_index : ℤ) cc.2.x cc.2.y cc.2.z).grid_data = _
    rw [hcell, set3_grid_data]
  next hfa => exact Or.inl rfl

theorem step_2d_preserves_occupied (dimensions : vec2) (r2 : ℚ) (k : ℤ)
    (d : Iter2Draws) (s : State2) (f : ℤ)
    (h : gridRead s.g.grid_data f ≠ NO_SAMPLE) :
    gridRead (step_2d dimensions r2 k d s).g.grid_data f = gridRead s.g.grid_data f := by
  rcases step_2d_grid_char dimensions r2 k d s with hc | ⟨fl, hfl, h0, hl, hc⟩
  · rw [hc]
  · rw [hc]
    apply gridRead_gridWrite_ne
    intro he
    rw [he] at hfl
    exact h hfl

theorem step_3d_preserves_occupied (dimensions : vec3) (r2 : ℚ) (k : ℤ)
    (d : Iter3Draws) (s : State3) (f : ℤ)
    (h : gridRead s.g.grid_data f ≠ NO_SAMPLE) :
    gridRead (step_3d dimensions r2 k d s).g.grid_data f = gridRead s.g.grid_data f := by
  rcases step_3d_grid_char dimensions r2 k d s with hc | ⟨fl, hfl, h0, hl, hc⟩
  · rw [hc]
  · rw [hc]
    apply gridRead_gridWrite_ne
    intro he
    rw [he] at hfl
    exact h hfl

theorem step_2d_grid_transition (dimensions : vec2) (r2 : ℚ) (k : ℤ)
    (d : Iter2Draws) (s : State2) (f : ℤ)
    (h : gridRead (step_2d dimensions r2 k d s).g.grid_data f ≠ gridRead s.g.grid_data f) :
    gridRead s.g.grid_data f = NO_SAMPLE ∧
    gridRead (step_2d dimensions r2 k d s).g.grid_data f = (s.sample_index : ℤ) := by
  rcases step_2d_grid_char dimensions r2 k d s with hc | ⟨fl, hfl, h0, hl, hc⟩
  · rw [hc] at h
    exact absurd rfl h
  · by_cases hf : fl = f
    · rw [← hf]
      rw [hc, gridRead_gridWrite_same _ h0 hl]
      exact ⟨hfl, rfl⟩
    · rw [hc, gridRead_gridWrite_ne _ hf] at h
      exact absurd rfl h

theorem step_3d_grid_transition (dimensions : vec3) (r2 : ℚ) (k : ℤ)
    (d : Iter3Draws) (s : State3) (f : ℤ)
    (h : gridRead (step_3d dimensions r2 k d s).g.grid_data f ≠ gridRead s.g.grid_data f) :
    gridRead s.g.grid_data f = NO_SAMPLE ∧
    gridRead (step_3d dimensions r2 k d s).g.grid_data f = (s.sample_index : ℤ) := by
  rcases step_3d_grid_char dimensions r2 k d s with hc | ⟨fl, hfl, h0, hl, hc⟩
  · rw [hc] at h
    exact absurd rfl h
  · by_cases hf : fl = f
    · rw [← hf]
      rw [hc, gridRead_gridWrite_same _ h0 hl]
      exact ⟨hfl, rfl⟩
    · rw [hc, gridRead_gridWrite_ne _ hf] at h
      exact absurd rfl h

theorem run_2d_grid_persist (dimensions : vec2) (r2 : ℚ) (k : ℤ) :
    ∀ (ds : List Iter2Draws) (s : State2) (f : ℤ),
    gridRead s.g.grid_data f ≠ NO_SAMPLE →
    gridRead (run_2d dimensions r2 k ds s).g.grid_data f = gridRead s.g.grid_data f := by
  intro ds
  induction ds with
  | nil => exact fun s f h => rfl
  | cons d t ih =>
    intro s f h
    rw [run_2d_cons]
    by_cases he : s.active_list.isEmpty = true
    · rw [if_pos he]
    · rw [if_neg he]
      have hstep := step_2d_preserves_occupied dimensions r2 k d s f h
      rw [ih _ f (by rw [hstep]; exact h), hstep]

theorem run_3d_grid_persist (dimensions : vec3) (r2 : ℚ) (k : ℤ) :
    ∀ (ds : List Iter3Draws) (s : State3) (f : ℤ),
    gridRead s.g.grid_data f ≠ NO_SAMPLE →
    gridRead (run_3d dimensions r2 k ds s).g.grid_data f = gridRead s.g.grid_data f := by
  intro ds
  induction ds with
  | nil => exact fun s f h => rfl
  | cons d t ih =>
    intro s f h
    rw [run_3d_cons]
    by_cases he : s.active_list.isEmpty = true
    · rw [if_pos he]
    · rw [if_neg he]
      have hstep := step_3d_preserves_occupied dimensions r2 k d s f h
      rw [ih _ f (by rw [hstep]; exact h), hstep]

theorem abs_sub_lt_of_rcell_eq {cs a b : ℝ} (hcs : 0 < cs)
    (h : rcell cs a = rcell cs b) : |a - b| < cs := by
  unfold rcell at h
  have h1 := Int.floor_le (a / cs)
  have h2 := Int.lt_floor_add_one (a / cs)
  have h3 := Int.floor_le (b / cs)
  have h4 := Int.lt_floor_add_one (b / cs)
  rw [h] at h1 h2
  have h5 : |a / cs - b / cs| < 1 := abs_lt.mpr ⟨by linarith, by linarith⟩
  have h6 : a - b = cs * (a / cs - b / cs) := by field_simp
  rw [h6, abs_mul, abs_of_pos hcs]
  calc cs * |a / cs - b / cs| < cs * 1 := mul_lt_mul_of_pos_left h5 hcs
    _ = cs := mul_one cs

theorem sq_abs_sub_lt_of_rcell_eq {cs a b : ℝ} (hcs : 0 < cs)
    (h : rcell cs a = rcell cs b) : (a - b) * (a - b) < cs * cs := by
  have h1 := abs_sub_lt_of_rcell_eq hcs h
  calc (a - b) * (a - b) = |a - b| * |a - b| := (abs_mul_abs_self _).symm
    _ < cs * cs := mul_self_lt_mul_self (abs_nonneg _) h1

theorem grid2_cell_size_sq {r : ℝ} :
    grid2_cell_size r * grid2_cell_size r = r * r / 2 := by
  unfold grid2_cell_size
  rw [div_mul_div_comm, Real.mul_self_sqrt (by norm_num)]

theorem grid2_cell_size_pos {r : ℝ} (hr : 0 < r) : 0 < grid2_cell_size r :=
  div_pos hr (Real.sqrt_pos.mpr (by norm_num))

theorem grid3_cell_size_sq {r : ℝ} :
    grid3_cell_size r * grid3_cell_size r = r * r / 2 := by
  unfold grid3_cell_size
  rw [div_mul_div_comm, Real.mul_self_sqrt (by norm_num)]

theorem grid3_cell_size_pos {r : ℝ} (hr : 0 < r) : 0 < grid3_cell_size r :=
  div_pos hr (Real.sqrt_pos.mpr (by norm_num))

/-- C7: for every domain box, cell size, squared radius and draw stream, a
call with attempt budget k = 0 returns exactly one point, the seed: the
attempt loop never runs, and the seed is accepted unconditionally no matter
how small the domain is.  (Proved with no restriction on the parameters, so
in particular for every r greater than 0.) -/
theorem c7_k_zero_yields_seed_only :
    (∀ (dimensions : vec2) (cell_size r2 : ℚ) (seed : vec2) (draws : List Iter2Draws),
      fast_poisson_disk_2d dimensions cell_size r2 0 seed draws = [seed]) ∧
    (∀ (dimensions : vec3) (cell_size r2 : ℚ) (seed : vec3) (draws : List Iter3Draws),
      fast_poisson_disk_3d dimensions cell_size r2 0 seed draws = [seed]) :=
  ⟨fun dimensions cell_size r2 seed draws =>
    fpds2_k_nonpos (le_refl 0) dimensions cell_size r2 seed draws,
   fun dimensions cell_size r2 seed draws =>
    fpds3_k_nonpos (le_refl 0) dimensions cell_size r2 seed draws⟩

/-- C4 counterexample: called with the invalid attempt budget k = -1 (the
claim requires a configuration error to be raised before any point is
generated), the sampler raises nothing - its result type carries no error
at all, mirroring the `std::vector<vec2>` return of the source, which
contains no validation code - and instead generates and returns the seed
point. -/
theorem c4_counterexample :
    fast_poisson_disk_2d ⟨100, 100⟩ 5 50 (-1) ⟨1/2, 1/2⟩ [⟨0, []⟩] = [⟨1/2, 1/2⟩] :=
  fpds2_k_nonpos (by norm_num) ⟨100, 100⟩ 5 50 ⟨1/2, 1/2⟩ [⟨0, []⟩]

/-- C4 (amended): the sampler performs no configuration validation.  In
particular a negative attempt budget k is silently treated as zero attempts
(the `for (int i = 0; i < k; ++i)` loop body never runs), and the call
returns normally with exactly the seed point; r and the extents are not
checked either. -/
theorem c4_no_validation :
    (∀ (dimensions : vec2) (cell_size r2 : ℚ) (k : ℤ) (seed : vec2) (draws : List Iter2Draws),
      k < 0 → fast_poisson_disk_2d dimensions cell_size r2 k seed draws = [seed]) ∧
    (∀ (dimensions : vec3) (cell_size r2 : ℚ) (k : ℤ) (seed : vec3) (draws : List Iter3Draws),
      k < 0 → fast_poisson_disk_3d dimensions cell_size r2 k seed draws = [seed]) :=
  ⟨fun dimensions cell_size r2 k seed draws hk =>
    fpds2_k_nonpos (le_of_lt hk) dimensions cell_size r2 seed draws,
   fun dimensions cell_size r2 k seed draws hk =>
    fpds3_k_nonpos (le_of_lt hk) dimensions cell_size r2 seed draws⟩

/-- Witness for `c4_no_validation` at the concrete invalid budget k = -1. -/
theorem c4_no_validation_witness :
    (-1 : ℤ) < 0 ∧
    fast_poisson_disk_2d ⟨10, 10⟩ 5 50 (-1) ⟨1, 2⟩ [] = [⟨1, 2⟩] ∧
    fast_poisson_disk_3d ⟨10, 10, 10⟩ 5 50 (-1) ⟨1, 2, 3⟩ [] = [⟨1, 2, 3⟩] :=
  ⟨by norm_num,
   c4_no_validation.1 ⟨10, 10⟩ 5 50 (-1) ⟨1, 2⟩ [] (by norm_num),
   c4_no_validation.2 ⟨10, 10, 10⟩ 5 50 (-1) ⟨1, 2, 3⟩ [] (by norm_num)⟩

/-- C9 counterexample: the grid accessor given the out-of-range cell
coordinate (2, 0) on a 2-by-2 grid does not fail - the checked accessor
demanded by the spec returns `none` there, but the source accessor performs
an unchecked flat read and silently returns the sample index stored in the
different cell (0, 1). -/
theorem c9_counterexample :
    grid.get2_checked cex9Grid 2 0 = none ∧
    cex9Grid.get2 2 0 = 5 ∧
    cex9Grid.get2 2 0 = cex9Grid.get2 0 1 := by
  refine ⟨by decide, by decide, by decide⟩

/-- C9 (amended): the grid accessors perform unchecked row-major flat
indexing and raise no bounds error: a cell coordinate that is out of range
on one axis aliases a different cell whenever the flat index stays inside
the backing array - `get(x + width, y)` reads cell (x, y + 1) in 2D, and
`get3(x + width, y, z)` reads cell (x, y, z + 1) in 3D - and otherwise the
access is undefined behavior in the source; the point-list reads
(`point_list[...]`) are equally unchecked. -/
theorem c9_unchecked_alias :
    (∀ (g : grid) (x y : ℤ), g.get2 (x + g.grid_width) y = g.get2 x (y + 1)) ∧
    (∀ (g : grid) (x y z : ℤ), g.get3 (x + g.grid_width) y z = g.get3 x y (z + 1)) := by
  constructor
  · intro g x y
    unfold grid.get2
    congr 1
    ring
  · intro g x y z
    unfold grid.get3
    congr 1
    ring

/-- C3: in the concrete 2D run (domain 100 x 100, r2 = 50, cell size 5,
k = 1) the reachable state after three iterations has active list [1, 2]
and three stored points.  With position draw 0 the claim requires sampling
around the selected member's point, `point_list[active_list[0]]` =
`point_list[1]` = (47.9, 2.5); the code instead samples around
`point_list[0]` = (34.9, 2.5) - the seed, whose index 0 is no longer in the
active set at all - and, when its k attempts fail, erases member 1, whose
neighborhood was never sampled in this iteration. -/
theorem c3_parent_mismatch :
    cex2State3.active_list = [1, 2] ∧
    cex2State3.point_list.getD (0 % cex2State3.active_list.length) ⟨0, 0⟩ = ⟨349/10, 5/2⟩ ∧
    cex2State3.point_list.getD
      (cex2State3.active_list.getD (0 % cex2State3.active_list.length) 0) ⟨0, 0⟩
      = ⟨479/10, 5/2⟩ ∧
    (⟨349/10, 5/2⟩ : vec2) ≠ ⟨479/10, 5/2⟩ ∧
    0 ∉ cex2State3.active_list ∧
    (step_2d cex2Dims 50 1 ⟨0, [⟨0, -8⟩]⟩ cex2State3).active_list = [2] := by
  refine ⟨by decide, by decide, by decide, by decide, by decide, by decide⟩

/-- C1 counterexample: a run of the 2D sampler with r2 = 50 (r = sqrt 50 >
0, cell size 5 = r / sqrt 2), seed (34.9, 2.5) and only in-contract draws
(every offset has squared norm in [r2, 4 r2), i.e. radius in [r, 2r))
returns the three points (34.9, 2.5), (47.9, 2.5), (40, 2.5); the first and
third are distinct accepted points at squared distance 26.01 < 50, i.e.
closer than r, because the seed's cell (6, 0) is two cell steps away from
the third point's cell (8, 0) and the 3-by-3 neighbor sweep never examined
it. -/
theorem c1_counterexample :
    cex2Points = [⟨349/10, 5/2⟩, ⟨479/10, 5/2⟩, ⟨40, 5/2⟩] ∧
    cex2Points.getD 0 ⟨0, 0⟩ ≠ cex2Points.getD 2 ⟨0, 0⟩ ∧
    distance2_vec2 (cex2Points.getD 0 ⟨0, 0⟩) (cex2Points.getD 2 ⟨0, 0⟩) < 50 ∧
    (0 : ℚ) < 50 ∧ (5 : ℚ) * 5 * 2 = 50 ∧
    (0 ≤ cex2Seed.x ∧ cex2Seed.x < cex2Dims.x ∧ 0 ≤ cex2Seed.y ∧ cex2Seed.y < cex2Dims.y) ∧
    (∀ d ∈ cex2Draws, ∀ o ∈ d.offsets,
      50 ≤ o.x * o.x + o.y * o.y ∧ o.x * o.x + o.y * o.y < 4 * 50) := by
  refine ⟨by decide, by decide, by decide, by norm_num, by norm_num, by decide, by decide⟩

/-- C5: for every valid configuration (positive squared radius r2, positive
cell size tied to it by cell_size * cell_size * 2 = r2 as in the source,
positive extents, attempt budget k at least 0) and any sufficiently long
draw stream - the source draws fresh randomness every iteration, so a
stream of length at least the initial measure is always available - the
main loop terminates with an empty active list, the returned point store
starts with the seed (in particular the run yields at least the seed point,
also for k = 1), and the point store only ever grows by appending, so it is
returned in acceptance order. -/
theorem c5_termination :
    (∀ (dimensions : vec2) (cell_size r2 : ℚ) (k : ℤ) (seed : vec2)
      (draws : List Iter2Draws),
      0 < r2 → 0 < cell_size → cell_size * cell_size * 2 = r2 →
      0 < dimensions.x → 0 < dimensions.y → 0 ≤ k →
      measure_2d (init_2d dimensions cell_size seed) ≤ draws.length →
      (run_2d dimensions r2 k draws (init_2d dimensions cell_size seed)).active_list = [] ∧
      (∃ t, fast_poisson_disk_2d dimensions cell_size r2 k seed draws = seed :: t) ∧
      (∀ ds₁ ds₂ : List Iter2Draws, ∃ t,
        (run_2d dimensions r2 k (ds₁ ++ ds₂) (init_2d dimensions cell_size seed)).point_list =
          (run_2d dimensions r2 k ds₁ (init_2d dimensions cell_size seed)).point_list ++ t)) ∧
    (∀ (dimensions : vec3) (cell_size r2 : ℚ) (k : ℤ) (seed : vec3)
      (draws : List Iter3Draws),
      0 < r2 → 0 < cell_size → cell_size * cell_size * 2 = r2 →
      0 < dimensions.x → 0 < dimensions.y → 0 < dimensions.z → 0 ≤ k →
      measure_3d (init_3d dimensions cell_size seed) ≤ draws.length →
      (run_3d dimensions r2 k draws (init_3d dimensions cell_size seed)).active_list = [] ∧
      (∃ t, fast_poisson_disk_3d dimensions cell_size r2 k seed draws = seed :: t) ∧
      (∀ ds₁ ds₂ : List Iter3Draws, ∃ t,
        (run_3d dimensions r2 k (ds₁ ++ ds₂) (init_3d dimensions cell_size seed)).point_list =
          (run_3d dimensions r2 k ds₁ (init_3d dimensions cell_size seed)).point_list ++ t)) := by
  constructor
  · intro dimensions cell_size r2 k seed draws hr2 hcs hlink hdx hdy hk hm
    refine ⟨run_2d_empties draws _ hm, ?_, ?_⟩
    · obtain ⟨t, ht⟩ := run_2d_points draws (init_2d dimensions cell_size seed)
      refine ⟨t, ?_⟩
      unfold fast_poisson_disk_2d
      rw [ht]
      rfl
    · intro ds₁ ds₂
      rw [run_2d_append]
      exact run_2d_points ds₂ _
  · intro dimensions cell_size r2 k seed draws hr2 hcs hlink hdx hdy hdz hk hm
    refine ⟨run_3d_empties draws _ hm, ?_, ?_⟩
    · obtain ⟨t, ht⟩ := run_3d_points draws (init_3d dimensions cell_size seed)
      refine ⟨t, ?_⟩
      unfold fast_poisson_disk_3d
      rw [ht]
      rfl
    · intro ds₁ ds₂
      rw [run_3d_append]
      exact run_3d_points ds₂ _

/-- Witness for `c5_termination` on concrete tiny runs (2D and 3D, one-cell
grids, k = 0, one draw packet). -/
theorem c5_termination_witness :
    ((0 : ℚ) < 50 ∧ (0 : ℚ) < 5 ∧ (5 : ℚ) * 5 * 2 = 50 ∧ (0 : ℚ) < 1 ∧ (0 : ℤ) ≤ 0 ∧
      measure_2d (init_2d ⟨1, 1⟩ 5 ⟨1/2, 1/2⟩) ≤ ([⟨0, []⟩] : List Iter2Draws).length ∧
      (run_2d ⟨1, 1⟩ 50 0 [⟨0, []⟩] (init_2d ⟨1, 1⟩ 5 ⟨1/2, 1/2⟩)).active_list = [] ∧
      (∃ t, fast_poisson_disk_2d ⟨1, 1⟩ 5 50 0 ⟨1/2, 1/2⟩ [⟨0, []⟩] = ⟨1/2, 1/2⟩ :: t)) ∧
    (measure_3d (init_3d ⟨1, 1, 1⟩ 5 ⟨1/2, 1/2, 1/2⟩) ≤ ([⟨0, []⟩] : List Iter3Draws).length ∧
      (run_3d ⟨1, 1, 1⟩ 50 0 [⟨0, []⟩] (init_3d ⟨1, 1, 1⟩ 5 ⟨1/2, 1/2, 1/2⟩)).active_list = [] ∧
      ∃ t, fast_poisson_disk_3d ⟨1, 1, 1⟩ 5 50 0 ⟨1/2, 1/2, 1/2⟩ [⟨0, []⟩] = ⟨1/2, 1/2, 1/2⟩ :: t) := by
  have h2 := c5_termination.1 ⟨1, 1⟩ 5 50 0 ⟨1/2, 1/2⟩ [⟨0, []⟩]
    (by norm_num) (by norm_num) (by norm_num) (by norm_num) (by norm_num) (by norm_num)
    (by decide)
  have h3 := c5_termination.2 ⟨1, 1, 1⟩ 5 50 0 ⟨1/2, 1/2, 1/2⟩ [⟨0, []⟩]
    (by norm_num) (by norm_num) (by norm_num) (by norm_num) (by norm_num) (by norm_num)
    (by norm_num) (by decide)
  exact ⟨⟨by norm_num, by norm_num, by norm_num, by norm_num, by norm_num,
    by decide, h2.1, h2.2.1⟩, by decide, h3.1, h3.2.1⟩

/-- C6: grid cells are written at most once.  In every step of either
sampler, a cell that already holds a sample index keeps its value
unchanged, and a cell whose value changes at all was `NO_SAMPLE` before and
holds the freshly assigned sample index after; consequently, across any
continuation of a run, an occupied cell's content never changes (so no cell
is ever overwritten or returned to empty). -/
theorem c6_cell_write_once :
    (∀ (dimensions : vec2) (r2 : ℚ) (k : ℤ) (d : Iter2Draws) (s : State2) (f : ℤ),
      (gridRead s.g.grid_data f ≠ NO_SAMPLE →
        gridRead (step_2d dimensions r2 k d s).g.grid_data f = gridRead s.g.grid_data f) ∧
      (gridRead (step_2d dimensions r2 k d s).g.grid_data f ≠ gridRead s.g.grid_data f →
        gridRead s.g.grid_data f = NO_SAMPLE ∧
        gridRead (step_2d dimensions r2 k d s).g.grid_data f = (s.sample_index : ℤ))) ∧
    (∀ (dimensions : vec2) (r2 : ℚ) (k : ℤ) (ds₁ ds₂ : List Iter2Draws) (s : State2) (f : ℤ),
      gridRead (run_2d dimensions r2 k ds₁ s).g.grid_data f ≠ NO_SAMPLE →
      gridRead (run_2d dimensions r2 k (ds₁ ++ ds₂) s).g.grid_data f =
        gridRead (run_2d dimensions r2 k ds₁ s).g.grid_data f) ∧
    (∀ (dimensions : vec3) (r2 : ℚ) (k : ℤ) (d : Iter3Draws) (s : State3) (f : ℤ),
      (gridRead s.g.grid_data f ≠ NO_SAMPLE →
        gridRead (step_3d dimensions r2 k d s).g.grid_data f = gridRead s.g.grid_data f) ∧
      (gridRead (step_3d dimensions r2 k d s).g.grid_data f ≠ gridRead s.g.grid_data f →
        gridRead s.g.grid_data f = NO_SAMPLE ∧
        gridRead (step_3d dimensions r2 k d s).g.grid_data f = (s.sample_index : ℤ))) ∧
    (∀ (dimensions : vec3) (r2 : ℚ) (k : ℤ) (ds₁ ds₂ : List Iter3Draws) (s : State3) (f : ℤ),
      gridRead (run_3d dimensions r2 k ds₁ s).g.grid_data f ≠ NO_SAMPLE →
      gridRead (run_3d dimensions r2 k (ds₁ ++ ds₂) s).g.grid_data f =
        gridRead (run_3d dimensions r2 k ds₁ s).g.grid_data f) := by
  refine ⟨?_, ?_, ?_, ?_⟩
  · intro dimensions r2 k d s f
    exact ⟨step_2d_preserves_occupied dimensions r2 k d s f,
      step_2d_grid_transition dimensions r2 k d s f⟩
  · intro dimensions r2 k ds₁ ds₂ s f h
    rw [run_2d_append]
    exact run_2d_grid_persist dimensions r2 k ds₂ _ f h
  · intro dimensions r2 k d s f
    exact ⟨step_3d_preserves_occupied dimensions r2 k d s f,
      step_3d_grid_transition dimensions r2 k d s f⟩
  · intro dimensions r2 k ds₁ ds₂ s f h
    rw [run_3d_append]
    exact run_3d_grid_persist dimensions r2 k ds₂ _ f h

/-- Witness for `c6_cell_write_once` on concrete tiny states: in the seeded
one-cell 2D and 3D grids, cell 0 holds the seed index 0 and keeps it across
a step and across a run continuation. -/
theorem c6_cell_write_once_witness :
    (gridRead (init_2d ⟨1, 1⟩ 5 ⟨1/2, 1/2⟩).g.grid_data 0 ≠ NO_SAMPLE ∧
      gridRead (step_2d ⟨1, 1⟩ 50 0 ⟨0, []⟩ (init_2d ⟨1, 1⟩ 5 ⟨1/2, 1/2⟩)).g.grid_data 0 =
        gridRead (init_2d ⟨1, 1⟩ 5 ⟨1/2, 1/2⟩).g.grid_data 0) ∧
    (gridRead (run_2d ⟨1, 1⟩ 50 0 [] (init_2d ⟨1, 1⟩ 5 ⟨1/2, 1/2⟩)).g.grid_data 0 ≠ NO_SAMPLE ∧
      gridRead (run_2d ⟨1, 1⟩ 50 0 ([] ++ [⟨0, []⟩]) (init_2d ⟨1, 1⟩ 5 ⟨1/2, 1/2⟩)).g.grid_data 0 =
        gridRead (run_2d ⟨1, 1⟩ 50 0 [] (init_2d ⟨1, 1⟩ 5 ⟨1/2, 1/2⟩)).g.grid_data 0) ∧
    (gridRead (init_3d ⟨1, 1, 1⟩ 5 ⟨1/2, 1/2, 1/2⟩).g.grid_data 0 ≠ NO_SAMPLE ∧
      gridRead (step_3d ⟨1, 1, 1⟩ 50 0 ⟨0, []⟩ (init_3d ⟨1, 1, 1⟩ 5 ⟨1/2, 1/2, 1/2⟩)).g.grid_data 0 =
        gridRead (init_3d ⟨1, 1, 1⟩ 5 ⟨1/2, 1/2, 1/2⟩).g.grid_data 0) ∧
    (gridRead (run_3d ⟨1, 1, 1⟩ 50 0 [] (init_3d ⟨1, 1, 1⟩ 5 ⟨1/2, 1/2, 1/2⟩)).g.grid_data 0 ≠ NO_SAMPLE ∧
      gridRead (run_3d ⟨1, 1, 1⟩ 50 0 ([] ++ [⟨0, []⟩]) (init_3d ⟨1, 1, 1⟩ 5 ⟨1/2, 1/2, 1/2⟩)).g.grid_data 0 =
        gridRead (run_3d ⟨1, 1, 1⟩ 50 0 [] (init_3d ⟨1, 1, 1⟩ 5 ⟨1/2, 1/2, 1/2⟩)).g.grid_data 0) := by
  refine ⟨⟨by decide, ?_⟩, ⟨by decide, ?_⟩, ⟨by decide, ?_⟩, by decide, ?_⟩
  · exact (c6_cell_write_once.1 ⟨1, 1⟩ 50 0 ⟨0, []⟩ (init_2d ⟨1, 1⟩ 5 ⟨1/2, 1/2⟩) 0).1
      (by decide)
  · exact c6_cell_write_once.2.1 ⟨1, 1⟩ 50 0 [] [⟨0, []⟩] (init_2d ⟨1, 1⟩ 5 ⟨1/2, 1/2⟩) 0
      (by decide)
  · exact (c6_cell_write_once.2.2.1 ⟨1, 1, 1⟩ 50 0 ⟨0, []⟩
      (init_3d ⟨1, 1, 1⟩ 5 ⟨1/2, 1/2, 1/2⟩) 0).1 (by decide)
  · exact c6_cell_write_once.2.2.2 ⟨1, 1, 1⟩ 50 0 [] [⟨0, []⟩]
      (init_3d ⟨1, 1, 1⟩ 5 ⟨1/2, 1/2, 1/2⟩) 0 (by decide)

/-- C8: given an in-domain seed (which the seeding draws
`uniform_real_distribution(0, extent)` guarantee), every point in the
returned sequence, seed included, has each coordinate in the half-open
interval [0, extent) for its axis; and any candidate outside that interval
on any axis is rejected by the attempt test (the attempt loop then simply
continues with the next attempt). -/
theorem c8_points_in_box :
    (∀ (dimensions : vec2) (cell_size r2 : ℚ) (k : ℤ) (seed : vec2)
      (draws : List Iter2Draws),
      0 < cell_size →
      0 ≤ seed.x → seed.x < dimensions.x → 0 ≤ seed.y → seed.y < dimensions.y →
      ∀ p ∈ fast_poisson_disk_2d dimensions cell_size r2 k seed draws,
        0 ≤ p.x ∧ p.x < dimensions.x ∧ 0 ≤ p.y ∧ p.y < dimensions.y) ∧
    (∀ (dimensions : vec2) (r2 : ℚ) (g : grid) (point_list : List vec2) (cand : vec2),
      (cand.x < 0 ∨ dimensions.x ≤ cand.x ∨ cand.y < 0 ∨ dimensions.y ≤ cand.y) →
      attempt_2d dimensions r2 g point_list cand = none) ∧
    (∀ (dimensions : vec3) (cell_size r2 : ℚ) (k : ℤ) (seed : vec3)
      (draws : List Iter3Draws),
      0 < cell_size →
      0 ≤ seed.x → seed.x < dimensions.x → 0 ≤ seed.y → seed.y < dimensions.y →
      0 ≤ seed.z → seed.z < dimensions.z →
      ∀ p ∈ fast_poisson_disk_3d dimensions cell_size r2 k seed draws,
        0 ≤ p.x ∧ p.x < dimensions.x ∧ 0 ≤ p.y ∧ p.y < dimensions.y ∧
          0 ≤ p.z ∧ p.z < dimensions.z) ∧
    (∀ (dimensions : vec3) (r2 : ℚ) (g : grid) (point_list : List vec3) (cand : vec3),
      (cand.x < 0 ∨ dimensions.x ≤ cand.x ∨ cand.y < 0 ∨ dimensions.y ≤ cand.y ∨
        cand.z < 0 ∨ dimensions.z ≤ cand.z) →
      attempt_3d dimensions r2 g point_list cand = none) := by
  refine ⟨?_, ?_, ?_, ?_⟩
  · intro dimensions cell_size r2 k seed draws hcs hsx0 hsx hsy0 hsy
    have hInv := @Inv2_run dimensions cell_size r2 k draws
      (init_2d dimensions cell_size seed) hcs (Inv2_init hcs hsx0 hsx hsy0 hsy)
    unfold fast_poisson_disk_2d
    exact hInv.in_box
  · intro dimensions r2 g point_list cand hout
    unfold attempt_2d
    by_cases h1 : cand.x < 0 ∨ dimensions.x ≤ cand.x
    · rw [if_pos h1]
    · rw [if_neg h1]
      have h2 : cand.y < 0 ∨ dimensions.y ≤ cand.y := by tauto
      rw [if_pos h2]
  · intro dimensions cell_size r2 k seed draws hcs hsx0 hsx hsy0 hsy hsz0 hsz
    have hInv := @Inv3_run dimensions cell_size r2 k draws
      (init_3d dimensions cell_size seed) hcs (Inv3_init hcs hsx0 hsx hsy0 hsy hsz0 hsz)
    unfold fast_poisson_disk_3d
    exact hInv.in_box
  · intro dimensions r2 g point_list cand hout
    unfold attempt_3d
    by_cases h1 : cand.x < 0 ∨ dimensions.x ≤ cand.x
    · rw [if_pos h1]
    · rw [if_neg h1]
      by_cases h2 : cand.y < 0 ∨ dimensions.y ≤ cand.y
      · rw [if_pos h2]
      · rw [if_neg h2]
        have h3 : cand.z < 0 ∨ dimensions.z ≤ cand.z := by tauto
        rw [if_pos h3]

/-- Witness for `c8_points_in_box`: the tiny 2D and 3D runs keep their seed
inside the box, and concrete out-of-box candidates are rejected. -/
theorem c8_points_in_box_witness :
    ((0 : ℚ) < 5 ∧ (0 : ℚ) ≤ 1/2 ∧ (1/2 : ℚ) < 1 ∧
      (0 ≤ (⟨1/2, 1/2⟩ : vec2).x ∧ (⟨1/2, 1/2⟩ : vec2).x < (⟨1, 1⟩ : vec2).x ∧
        0 ≤ (⟨1/2, 1/2⟩ : vec2).y ∧ (⟨1/2, 1/2⟩ : vec2).y < (⟨1, 1⟩ : vec2).y)) ∧
    attempt_2d ⟨1, 1⟩ 50 (grid.construct2 ⟨1, 1⟩ 5) [] ⟨-1, 0⟩ = none ∧
    (0 ≤ (⟨1/2, 1/2, 1/2⟩ : vec3).x ∧ (⟨1/2, 1/2, 1/2⟩ : vec3).x < (⟨1, 1, 1⟩ : vec3).x ∧
      0 ≤ (⟨1/2, 1/2, 1/2⟩ : vec3).y ∧ (⟨1/2, 1/2, 1/2⟩ : vec3).y < (⟨1, 1, 1⟩ : vec3).y ∧
      0 ≤ (⟨1/2, 1/2, 1/2⟩ : vec3).z ∧ (⟨1/2, 1/2, 1/2⟩ : vec3).z < (⟨1, 1, 1⟩ : vec3).z) ∧
    attempt_3d ⟨1, 1, 1⟩ 50 (grid.construct3 ⟨1, 1, 1⟩ 5) [] ⟨-1, 0, 0⟩ = none := by
  refine ⟨⟨by norm_num, by norm_num, by norm_num, ?_⟩, ?_, ?_, ?_⟩
  · exact c8_points_in_box.1 ⟨1, 1⟩ 5 50 0 ⟨1/2, 1/2⟩ [] (by norm_num) (by norm_num)
      (by norm_num) (by norm_num) (by norm_num) ⟨1/2, 1/2⟩ (by decide)
  · exact c8_points_in_box.2.1 ⟨1, 1⟩ 50 (grid.construct2 ⟨1, 1⟩ 5) [] ⟨-1, 0⟩
      (by norm_num)
  · exact c8_points_in_box.2.2.1 ⟨1, 1, 1⟩ 5 50 0 ⟨1/2, 1/2, 1/2⟩ [] (by norm_num)
      (by norm_num) (by norm_num) (by norm_num) (by norm_num) (by norm_num) (by norm_num)
      ⟨1/2, 1/2, 1/2⟩ (by decide)
  · exact c8_points_in_box.2.2.2 ⟨1, 1, 1⟩ 50 (grid.construct3 ⟨1, 1, 1⟩ 5) [] ⟨-1, 0, 0⟩
      (by norm_num)

/-- C10: throughout every sampling run from an in-domain seed, every
occupied grid cell stores a sample index strictly below the current point
count, every active-list member is strictly below the point count, the
active list is never longer than the point list (so the parent lookup
`point_list[index]` at a position below the active-list size is in range),
and the sample counter always equals the point count (indices are assigned
sequentially exactly when a point is appended). -/
theorem c10_index_invariant :
    (∀ (dimensions : vec2) (cell_size r2 : ℚ) (k : ℤ) (seed : vec2)
      (draws : List Iter2Draws),
      0 < cell_size →
      0 ≤ seed.x → seed.x < dimensions.x → 0 ≤ seed.y → seed.y < dimensions.y →
      (∀ v ∈ (run_2d dimensions r2 k draws (init_2d dimensions cell_size seed)).g.grid_data,
        v = NO_SAMPLE ∨ (0 ≤ v ∧ v.toNat <
          (run_2d dimensions r2 k draws (init_2d dimensions cell_size seed)).point_list.length)) ∧
      (∀ a ∈ (run_2d dimensions r2 k draws (init_2d dimensions cell_size seed)).active_list,
        a < (run_2d dimensions r2 k draws (init_2d dimensions cell_size seed)).point_list.length) ∧
      (run_2d dimensions r2 k draws (init_2d dimensions cell_size seed)).active_list.length ≤
        (run_2d dimensions r2 k draws (init_2d dimensions cell_size seed)).point_list.length ∧
      (run_2d dimensions r2 k draws (init_2d dimensions cell_size seed)).sample_index =
        (run_2d dimensions r2 k draws (init_2d dimensions cell_size seed)).point_list.length ∧
      (∀ n : ℕ,
        (run_2d dimensions r2 k draws (init_2d dimensions cell_size seed)).active_list ≠ [] →
        n % (run_2d dimensions r2 k draws (init_2d dimensions cell_size seed)).active_list.length <
          (run_2d dimensions r2 k draws (init_2d dimensions cell_size seed)).point_list.length)) ∧
    (∀ (dimensions : vec3) (cell_size r2 : ℚ) (k : ℤ) (seed : vec3)
      (draws : List Iter3Draws),
      0 < cell_size →
      0 ≤ seed.x → seed.x < dimensions.x → 0 ≤ seed.y → seed.y < dimensions.y →
      0 ≤ seed.z → seed.z < dimensions.z →
      (∀ v ∈ (run_3d dimensions r2 k draws (init_3d dimensions cell_size seed)).g.grid_data,
        v = NO_SAMPLE ∨ (0 ≤ v ∧ v.toNat <
          (run_3d dimensions r2 k draws (init_3d dimensions cell_size seed)).point_list.length)) ∧
      (∀ a ∈ (run_3d dimensions r2 k draws (init_3d dimensions cell_size seed)).active_list,
        a < (run_3d dimensions r2 k draws (init_3d dimensions cell_size seed)).point_list.length) ∧
      (run_3d dimensions r2 k draws (init_3d dimensions cell_size seed)).active_list.length ≤
        (run_3d dimensions r2 k draws (init_3d dimensions cell_size seed)).point_list.length ∧
      (run_3d dimensions r2 k draws (init_3d dimensions cell_size seed)).sample_index =
        (run_3d dimensions r2 k draws (init_3d dimensions cell_size seed)).point_list.length ∧
      (∀ n : ℕ,
        (run_3d dimensions r2 k draws (init_3d dimensions cell_size seed)).active_list ≠ [] →
        n % (run_3d dimensions r2 k draws (init_3d dimensions cell_size seed)).active_list.length <
          (run_3d dimensions r2 k draws (init_3d dimensions cell_size seed)).point_list.length)) := by
  constructor
  · intro dimensions cell_size r2 k seed draws hcs hsx0 hsx hsy0 hsy
    have hInv := @Inv2_run dimensions cell_size r2 k draws
      (init_2d dimensions cell_size seed) hcs (Inv2_init hcs hsx0 hsx hsy0 hsy)
    refine ⟨hInv.entries, hInv.active_mem, hInv.active_len, hInv.samp_eq, ?_⟩
    intro n hne
    have hpos : 0 < (run_2d dimensions r2 k draws
        (init_2d dimensions cell_size seed)).active_list.length :=
      List.length_pos.mpr hne
    exact lt_of_lt_of_le (Nat.mod_lt n hpos) hInv.active_len
  · intro dimensions cell_size r2 k seed draws hcs hsx0 hsx hsy0 hsy hsz0 hsz
    have hInv := @Inv3_run dimensions cell_size r2 k draws
      (init_3d dimensions cell_size seed) hcs (Inv3_init hcs hsx0 hsx hsy0 hsy hsz0 hsz)
    refine ⟨hInv.entries, hInv.active_mem, hInv.active_len, hInv.samp_eq, ?_⟩
    intro n hne
    have hpos : 0 < (run_3d dimensions r2 k draws
        (init_3d dimensions cell_size seed)).active_list.length :=
      List.length_pos.mpr hne
    exact lt_of_lt_of_le (Nat.mod_lt n hpos) hInv.active_len

/-- Witness for `c10_index_invariant` on the seeded one-cell runs: the
single occupied cell stores 0, below the point count 1, the active member 0
is in range, and the parent position for any draw is in range. -/
theorem c10_index_invariant_witness :
    ((0 : ℚ) < 5 ∧
      ((0 : ℤ) = NO_SAMPLE ∨ ((0 : ℤ) ≤ 0 ∧ (0 : ℤ).toNat <
        (run_2d ⟨1, 1⟩ 50 0 [] (init_2d ⟨1, 1⟩ 5 ⟨1/2, 1/2⟩)).point_list.length)) ∧
      (0 < (run_2d ⟨1, 1⟩ 50 0 [] (init_2d ⟨1, 1⟩ 5 ⟨1/2, 1/2⟩)).point_list.length) ∧
      (run_2d ⟨1, 1⟩ 50 0 [] (init_2d ⟨1, 1⟩ 5 ⟨1/2, 1/2⟩)).sample_index =
        (run_2d ⟨1, 1⟩ 50 0 [] (init_2d ⟨1, 1⟩ 5 ⟨1/2, 1/2⟩)).point_list.length) ∧
    ((0 : ℤ) = NO_SAMPLE ∨ ((0 : ℤ) ≤ 0 ∧ (0 : ℤ).toNat <
        (run_3d ⟨1, 1, 1⟩ 50 0 [] (init_3d ⟨1, 1, 1⟩ 5 ⟨1/2, 1/2, 1/2⟩)).point_list.length)) ∧
      (run_3d ⟨1, 1, 1⟩ 50 0 [] (init_3d ⟨1, 1, 1⟩ 5 ⟨1/2, 1/2, 1/2⟩)).sample_index =
        (run_3d ⟨1, 1, 1⟩ 50 0 [] (init_3d ⟨1, 1, 1⟩ 5 ⟨1/2, 1/2, 1/2⟩)).point_list.length := by
  have h2 := c10_index_invariant.1 ⟨1, 1⟩ 5 50 0 ⟨1/2, 1/2⟩ [] (by norm_num) (by norm_num)
    (by norm_num) (by norm_num) (by norm_num)
  have h3 := c10_index_invariant.2 ⟨1, 1, 1⟩ 5 50 0 ⟨1/2, 1/2, 1/2⟩ [] (by norm_num)
    (by norm_num) (by norm_num) (by norm_num) (by norm_num) (by norm_num) (by norm_num)
  refine ⟨⟨by norm_num, h2.1 0 (by decide), ?_, h2.2.2.2.1⟩, h3.1 0 (by decide), h3.2.2.2.1⟩
  exact lt_of_lt_of_le (List.length_pos.mpr (by decide)) h2.2.2.1

/-- C1 (amended): pairwise minimum separation holds only between points
whose grid cells are within one cell step of each other.  For every run
from an in-domain seed with the source's cell-size relation
cell_size * cell_size * 2 = r2 (cell_size = r / sqrt 2, so r2 = r * r > 0),
any two distinct returned points whose cells differ by at most one step per
axis are at squared distance at least r2; the concrete counterexample run
shows that points whose cells are two steps apart can end up closer than r,
because the neighbor sweep only visits the 3-by-3 (2D) or 3-by-3-by-3 (3D)
adjacent cells. -/
theorem c1_adjacent_separation :
    (∀ (dimensions : vec2) (cell_size r2 : ℚ) (k : ℤ) (seed : vec2)
      (draws : List Iter2Draws),
      0 < cell_size → cell_size * cell_size * 2 = r2 →
      0 ≤ seed.x → seed.x < dimensions.x → 0 ≤ seed.y → seed.y < dimensions.y →
      ∀ i j : ℕ,
        i < (fast_poisson_disk_2d dimensions cell_size r2 k seed draws).length →
        j < (fast_poisson_disk_2d dimensions cell_size r2 k seed draws).length →
        i ≠ j →
        cheb2
          (world_to_cell_2d cell_size
            ((fast_poisson_disk_2d dimensions cell_size r2 k seed draws).getD i ⟨0, 0⟩))
          (world_to_cell_2d cell_size
            ((fast_poisson_disk_2d dimensions cell_size r2 k seed draws).getD j ⟨0, 0⟩)) ≤ 1 →
        r2 ≤ distance2_vec2
          ((fast_poisson_disk_2d dimensions cell_size r2 k seed draws).getD i ⟨0, 0⟩)
          ((fast_poisson_disk_2d dimensions cell_size r2 k seed draws).getD j ⟨0, 0⟩)) ∧
    (∀ (dimensions : vec3) (cell_size r2 : ℚ) (k : ℤ) (seed : vec3)
      (draws : List Iter3Draws),
      0 < cell_size → cell_size * cell_size * 2 = r2 →
      0 ≤ seed.x → seed.x < dimensions.x → 0 ≤ seed.y → seed.y < dimensions.y →
      0 ≤ seed.z → seed.z < dimensions.z →
      ∀ i j : ℕ,
        i < (fast_poisson_disk_3d dimensions cell_size r2 k seed draws).length →
        j < (fast_poisson_disk_3d dimensions cell_size r2 k seed draws).length →
        i ≠ j →
        cheb3
          (world_to_cell_3d cell_size
            ((fast_poisson_disk_3d dimensions cell_size r2 k seed draws).getD i ⟨0, 0, 0⟩))
          (world_to_cell_3d cell_size
            ((fast_poisson_disk_3d dimensions cell_size r2 k seed draws).getD j ⟨0, 0, 0⟩)) ≤ 1 →
        r2 ≤ distance2_vec3
          ((fast_poisson_disk_3d dimensions cell_size r2 k seed draws).getD i ⟨0, 0, 0⟩)
          ((fast_poisson_disk_3d dimensions cell_size r2 k seed draws).getD j ⟨0, 0, 0⟩)) := by
  constructor
  · intro dimensions cell_size r2 k seed draws hcs hlink hsx0 hsx hsy0 hsy i j hi hj hij hch
    have hInv := @Inv2_run dimensions cell_size r2 k draws
      (init_2d dimensions cell_size seed) hcs (Inv2_init hcs hsx0 hsx hsy0 hsy)
    exact hInv.sep_adj i j hi hj hij hch
  · intro dimensions cell_size r2 k seed draws hcs hlink hsx0 hsx hsy0 hsy hsz0 hsz
      i j hi hj hij hch
    have hInv := @Inv3_run dimensions cell_size r2 k draws
      (init_3d dimensions cell_size seed) hcs (Inv3_init hcs hsx0 hsx hsy0 hsy hsz0 hsz)
    exact hInv.sep_adj i j hi hj hij hch

/-- Witness for `c1_adjacent_separation` on the two concrete runs: in the
2D counterexample run, points 1 and 2 sit in the adjacent cells (9, 0) and
(8, 0) and are at squared distance 62.41 which is at least 50; in the small
3D run, points 0 and 1 sit in the adjacent cells (0, 0, 0) and (1, 0, 0)
and are at squared distance 54.76. -/
theorem c1_adjacent_separation_witness :
    ((0 : ℚ) < 5 ∧ (5 : ℚ) * 5 * 2 = 50 ∧
      0 ≤ cex2Seed.x ∧ cex2Seed.x < cex2Dims.x ∧ 0 ≤ cex2Seed.y ∧ cex2Seed.y < cex2Dims.y ∧
      1 < cex2Points.length ∧ 2 < cex2Points.length ∧ (1 : ℕ) ≠ 2 ∧
      cheb2 (world_to_cell_2d 5 (cex2Points.getD 1 ⟨0, 0⟩))
        (world_to_cell_2d 5 (cex2Points.getD 2 ⟨0, 0⟩)) ≤ 1 ∧
      50 ≤ distance2_vec2 (cex2Points.getD 1 ⟨0, 0⟩) (cex2Points.getD 2 ⟨0, 0⟩)) ∧
    (0 ≤ wit3Seed.x ∧ wit3Seed.x < wit3Dims.x ∧ 0 ≤ wit3Seed.y ∧ wit3Seed.y < wit3Dims.y ∧
      0 ≤ wit3Seed.z ∧ wit3Seed.z < wit3Dims.z ∧
      0 < wit3Points.length ∧ 1 < wit3Points.length ∧ (0 : ℕ) ≠ 1 ∧
      cheb3 (world_to_cell_3d 5 (wit3Points.getD 0 ⟨0, 0, 0⟩))
        (world_to_cell_3d 5 (wit3Points.getD 1 ⟨0, 0, 0⟩)) ≤ 1 ∧
      50 ≤ distance2_vec3 (wit3Points.getD 0 ⟨0, 0, 0⟩) (wit3Points.getD 1 ⟨0, 0, 0⟩)) := by
  refine ⟨⟨by norm_num, by norm_num, by decide, by decide, by decide, by decide,
      by decide, by decide, by decide, by decide, ?_⟩,
    by decide, by decide, by decide, by decide, by decide, by decide,
      by decide, by decide, by decide, by decide, ?_⟩
  · exact c1_adjacent_separation.1 cex2Dims 5 50 1 cex2Seed cex2Draws (by norm_num)
      (by norm_num) (by decide) (by decide) (by decide) (by decide) 1 2
      (by decide) (by decide) (by decide) (by decide)
  · exact c1_adjacent_separation.2 wit3Dims 5 50 1 wit3Seed wit3Draws (by norm_num)
      (by norm_num) (by decide) (by decide) (by decide) (by decide) (by decide) (by decide)
      0 1 (by decide) (by decide) (by decide) (by decide)

/-- C2 counterexample: the 3D grid constructor's cell size at separation
distance r = 1 is 1 / sqrt 2 (line 87 of the source divides by
`sqrtf(2.0f)`), which is not r / sqrt d = 1 / sqrt 3 for dimensionality
d = 3 as the claim states. -/
theorem c2_counterexample : grid3_cell_size 1 ≠ 1 / Real.sqrt 3 := by
  unfold grid3_cell_size
  intro h
  have h2 : (0 : ℝ) < Real.sqrt 2 := Real.sqrt_pos.mpr (by norm_num)
  have h3 : (0 : ℝ) < Real.sqrt 3 := Real.sqrt_pos.mpr (by norm_num)
  have h23 : Real.sqrt 2 < Real.sqrt 3 := Real.sqrt_lt_sqrt (by norm_num) (by norm_num)
  rw [div_eq_div_iff (ne_of_gt h2) (ne_of_gt h3), one_mul, one_mul] at h
  linarith

/-- C2 (amended): both grid constructors compute cell_size = r / sqrt 2 -
the 2D one where this equals r / sqrt d, and the 3D one as well, where it
does not.  Consequently two points sharing a 2D cell are within r of each
other (squared distance below r * r), while two points sharing a 3D cell
are only within sqrt(3/2) * r (squared distance below 3/2 * r * r), and
indeed a 3D cell can hold two points farther than r apart. -/
theorem c2_cell_size_sqrt_two (r : ℝ) (hr : 0 < r) :
    grid2_cell_size r = r / Real.sqrt 2 ∧
    grid3_cell_size r = r / Real.sqrt 2 ∧
    (∀ a b : ℝ × ℝ,
      rcell (grid2_cell_size r) a.1 = rcell (grid2_cell_size r) b.1 →
      rcell (grid2_cell_size r) a.2 = rcell (grid2_cell_size r) b.2 →
      rdist2 a b < r * r) ∧
    (∀ a b : ℝ × ℝ × ℝ,
      rcell (grid3_cell_size r) a.1 = rcell (grid3_cell_size r) b.1 →
      rcell (grid3_cell_size r) a.2.1 = rcell (grid3_cell_size r) b.2.1 →
      rcell (grid3_cell_size r) a.2.2 = rcell (grid3_cell_size r) b.2.2 →
      rdist3 a b < 3 / 2 * (r * r)) ∧
    (∃ a b : ℝ × ℝ × ℝ,
      rcell (grid3_cell_size r) a.1 = rcell (grid3_cell_size r) b.1 ∧
      rcell (grid3_cell_size r) a.2.1 = rcell (grid3_cell_size r) b.2.1 ∧
      rcell (grid3_cell_size r) a.2.2 = rcell (grid3_cell_size r) b.2.2 ∧
      r * r < rdist3 a b) := by
  have hcs2 : 0 < grid2_cell_size r := grid2_cell_size_pos hr
  have hcs3 : 0 < grid3_cell_size r := grid3_cell_size_pos hr
  refine ⟨rfl, rfl, ?_, ?_, ?_⟩
  · intro a b h1 h2
    have hx := sq_abs_sub_lt_of_rcell_eq hcs2 h1
    have hy := sq_abs_sub_lt_of_rcell_eq hcs2 h2
    have hsq := @grid2_cell_size_sq r
    unfold rdist2
    linarith
  · intro a b h1 h2 h3
    have hx := sq_abs_sub_lt_of_rcell_eq hcs3 h1
    have hy := sq_abs_sub_lt_of_rcell_eq hcs3 h2
    have hz := sq_abs_sub_lt_of_rcell_eq hcs3 h3
    have hsq := @grid3_cell_size_sq r
    unfold rdist3
    linarith
  · refine ⟨(0, 0, 0), (9/10 * grid3_cell_size r, 9/10 * grid3_cell_size r,
      9/10 * grid3_cell_size r), ?_, ?_, ?_, ?_⟩
    · unfold rcell
      rw [zero_div, mul_div_assoc, div_self (ne_of_gt hcs3), mul_one]
      norm_num
    · unfold rcell
      rw [zero_div, mul_div_assoc, div_self (ne_of_gt hcs3), mul_one]
      norm_num
    · unfold rcell
      rw [zero_div, mul_div_assoc, div_self (ne_of_gt hcs3), mul_one]
      norm_num
    · have hsq := @grid3_cell_size_sq r
      have hrr : 0 < r * r := mul_pos hr hr
      unfold rdist3
      nlinarith [hsq, hrr]

/-- Witness for `c2_cell_size_sqrt_two` at r = 1, with the 2D same-cell
bound instantiated at the pair of equal points (0, 0). -/
theorem c2_cell_size_sqrt_two_witness :
    (0 : ℝ) < 1 ∧ grid2_cell_size 1 = 1 / Real.sqrt 2 ∧
    grid3_cell_size 1 = 1 / Real.sqrt 2 ∧
    rdist2 (0, 0) (0, 0) < 1 * 1 := by
  have h := c2_cell_size_sqrt_two 1 (by norm_num)
  exact ⟨by norm_num, h.1, h.2.1, h.2.2.1 (0, 0) (0, 0) rfl rfl⟩
